import Mathlib

/-!
# Verification of the `gioc` dependency-injection container

Shallow embedding of the Go IoC container in this repository.  The embedding
follows the most evolved revision of each component present in the sources:

* the bean factory with the three-tier singleton cache, the in-progress
  (`creatingMap`) guard and the processor chain (`src/unnamed/part_003`);
* the containers with the `new` flag (`src/gioc/container.go`);
* the populate / AOP processors (`src/gioc/bean_processor.go`, second
  revision, the one using `hasAndGetDI` and `GetNewBean`).

Go `interface{}` bean values are modelled as tagged allocation identifiers
(`GoVal`), the Go heap as an association list from identifiers to field
slots, and Go maps as insertion-ordered association lists.  Go's `panic`
is modelled by the `PRes.panicked` result; a `defer`red call is executed on
both the normal and the panicking path, exactly as in Go.  Mutual recursion
through `GetBean` is expressed with a fuel parameter; running out of fuel
yields the distinguished panic "out of fuel", which no theorem below
confuses with a panic the program itself raises.

Ghost (observation-only) state is kept next to the program state so that
theorems can speak about events: `heap`/`nextId` double as the allocation
log, `wrapLog` records every `wrapIfNecessary` call of the AOP processor,
`factoryCallLog` records every invocation of a tier-3 producer, and
`cacheTrace` snapshots the three cache tiers after every mutation of one of
them.  No program decision reads the ghost fields.
-/

namespace Gioc

/-- Result of a Go computation: a normal value or a propagating `panic`. -/
inductive PRes (α : Type) where
  | ok (a : α)
  | panicked (msg : String)
deriving DecidableEq, Repr

/-- Insertion-ordered association list standing in for a Go `map[string]V`.
Determinization note: Go map iteration order is unspecified; inside the
interpreter we iterate in insertion order.  The order-sensitive lookup
`getBeanNameWithReflectType` is additionally modelled order-parametrically
below (`getBeanNameWithReflectTypeOrd`) to reason about that nondeterminism. -/
abbrev Smap (α : Type) : Type := List (String × α)

/-- Value lookup: Go `m[k]` (missing key reads as zero / `none`). -/
def smapFind {α : Type} : Smap α → String → Option α
  | [], _ => none
  | (k, v) :: rest, key => if k = key then some v else smapFind rest key

/-- Go `m[k] = v`: replace in place if present, else append (insertion order). -/
def smapInsert {α : Type} : Smap α → String → α → Smap α
  | [], key, v => [(key, v)]
  | (k, w) :: rest, key, v =>
    if k = key then (k, v) :: rest else (k, w) :: smapInsert rest key v

/-- Go `delete(m, k)`, also used for `m[k] = nil` (both make the value read
back as nil; no code in the repository distinguishes the two for these
maps).  All occurrences of the key are removed, so the function denotes
"the map without that key" on every list, not only on duplicate-free ones. -/
def smapErase {α : Type} : Smap α → String → Smap α
  | [], _ => []
  | (k, w) :: rest, key =>
    if k = key then smapErase rest key else (k, w) :: smapErase rest key

/-- Bean lifecycle kind, Go `type BeanType string` with the constants
`Invalid = ""`, `Singleton = "s"`, `Prototype = "p"`. -/
abbrev BeanType : Type := String

def Invalid : BeanType := ""

def Singleton : BeanType := "s"

def Prototype : BeanType := "p"

/-- Go `isSingleton`. -/
def isSingleton (bt : BeanType) : Bool := bt = Singleton

/-- Go `isPrototype`. -/
def isPrototype (bt : BeanType) : Bool := bt = Prototype

/-- A `reflect.Type` as used by the container: a named struct type, a
pointer type, or a primitive (non-bean) type. -/
inductive TyRef where
  | strukt (name : String)
  | ptr (elem : TyRef)
  | prim (name : String)
deriving DecidableEq, Repr

/-- A struct field as reflected: field name, the `di` tag
(`none` = tag absent; `some v` = tag present with value `v`), field type. -/
structure Fld where
  fname : String
  di : Option String
  fty : TyRef
deriving DecidableEq, Repr

/-- A Go interface value holding a bean: a pointer to allocation `id`, or a
(boxed copy of a) struct value originating from allocation `id`. -/
inductive GoVal where
  | ptrV (id : Nat)
  | structV (id : Nat)
deriving DecidableEq, Repr

/-- The allocation identifier carried by a `GoVal`. -/
def valId : GoVal → Nat
  | .ptrV i => i
  | .structV i => i

/-- Contents of one struct field slot in the heap. -/
inductive FieldContent where
  | unset
  | refId (id : Nat)
  | copyOf (id : Nat)
deriving DecidableEq, Repr

/-- A tier-3 entry: the closure installed by `addSingletonFactory` captures
the bean name, the early bean value and its type; its body runs the
`processAfterInitialization` chain at invocation time. -/
structure Pending where
  bean : GoVal
  ty : TyRef
deriving DecidableEq, Repr

/-- Ghost snapshot of the three cache tiers, recorded after each mutation. -/
structure CacheSnap where
  t1nil : Bool
  t1 : Smap GoVal
  t2 : Smap GoVal
  t3 : Smap Pending
deriving DecidableEq, Repr

/-- The `BeanBeanFactory` state.  `env` is the fixed reflection metadata
(struct name to field list); `tMapNil`/`singletonMapNil` model the Go nil
maps produced by `RegisterBeanProcessor`'s failure path (`bc.tMap = nil`,
`bc.singletonMap = nil`); the remaining fields after `nextId` are ghost. -/
structure Factory where
  env : Smap (List Fld)
  btMap : Smap BeanType
  tMapNil : Bool
  tMap : Smap (Option TyRef)
  singletonMapNil : Bool
  singletonMap : Smap GoVal
  earlyMap : Smap GoVal
  factoryMap : Smap Pending
  creatingMap : Smap Unit
  earlyProxyReferences : Smap Unit
  allowEarlyReference : Bool
  allowPopulateStructBean : Bool
  nextId : Nat
  heap : List (Nat × String × List FieldContent)
  wrapLog : List String
  factoryCallLog : List String
  cacheTrace : List CacheSnap
deriving DecidableEq, Repr

/-- `getBeanType`: read of `btMap` (missing key gives `Invalid = ""`). -/
def btRead (s : Factory) (name : String) : BeanType :=
  (smapFind s.btMap name).getD Invalid

/-- Two-valued read of `tMap` (`t, exist := bc.tMap[k]`); the inner
`Option TyRef` is the stored `reflect.Type`, `none` standing for a nil type. -/
def tRead (s : Factory) (name : String) : Option (Option TyRef) :=
  if s.tMapNil then none else smapFind s.tMap name

/-- Go `isRegistered`: key presence in `tMap`. -/
def isRegistered (s : Factory) (name : String) : Bool :=
  (tRead s name).isSome

/-- Value read of tier 1 (`bc.singletonMap[k]`). -/
def singletonRead (s : Factory) (name : String) : Option GoVal :=
  if s.singletonMapNil then none else smapFind s.singletonMap name

/-- Value read of tier 2 (`bc.earlyMap[k]`). -/
def earlyRead (s : Factory) (name : String) : Option GoVal :=
  smapFind s.earlyMap name

/-- Value read of tier 3 (`bc.factoryMap[k]`). -/
def factoryRead (s : Factory) (name : String) : Option Pending :=
  smapFind s.factoryMap name

/-- Value read of the in-progress set (`bc.creatingMap[k]`). -/
def creatingRead (s : Factory) (name : String) : Option Unit :=
  smapFind s.creatingMap name

/-- Value read of the AOP processor's `earlyProxyReferences`. -/
def proxyRead (s : Factory) (name : String) : Option Unit :=
  smapFind s.earlyProxyReferences name

/-- Push a ghost snapshot of the current cache tiers. -/
def pushSnap (s : Factory) : Factory :=
  { s with cacheTrace :=
      s.cacheTrace ++ [⟨s.singletonMapNil, s.singletonMap, s.earlyMap, s.factoryMap⟩] }

/-- Go `isBean` on an already-dereferenced type: struct types qualify
(the repository's interface case cannot arise for the registered shapes
modelled here, which are structs, pointers to structs and primitives). -/
def isBeanTy : TyRef → Bool
  | .strukt _ => true
  | .ptr (.strukt _) => true
  | .ptr _ => false
  | .prim _ => false

/-- The struct name of a type that passed `isBeanTy` after dereferencing. -/
def structNameOf : TyRef → String
  | .strukt n => n
  | .ptr (.strukt n) => n
  | .ptr _ => ""
  | .prim _ => ""

/-- Zero value of a struct: every field slot unset. -/
def zeroFields (flds : List Fld) : List FieldContent :=
  flds.map (fun _ => FieldContent.unset)

/-- `reflect.New(t)`: allocate a zero-valued aggregate of struct `sname`. -/
def allocate (sname : String) (s : Factory) : Nat × Factory :=
  let id := s.nextId
  let flds := (smapFind s.env sname).getD []
  (id, { s with
          nextId := id + 1
          heap := s.heap ++ [(id, sname, zeroFields flds)] })

/-- Heap read of an allocation's record. -/
def heapFind : List (Nat × String × List FieldContent) → Nat → Option (String × List FieldContent)
  | [], _ => none
  | (i, sn, fc) :: rest, id => if i = id then some (sn, fc) else heapFind rest id

/-- Boxing a struct value (`v.Interface()` on a non-pointer `reflect.Value`,
or `Elem().Interface()` on a pointer): a fresh allocation holding a copy of
the source allocation's current field contents. -/
def copyValue (src : Nat) (s : Factory) : Nat × Factory :=
  let id := s.nextId
  let rec' := (heapFind s.heap src).getD ("", [])
  (id, { s with
          nextId := id + 1
          heap := s.heap ++ [(id, rec'.1, rec'.2)] })

/-- Write field slot `i` of allocation `id`. -/
def heapSetField (id : Nat) (i : Nat) (c : FieldContent)
    : List (Nat × String × List FieldContent) → List (Nat × String × List FieldContent)
  | [] => []
  | (j, sn, fc) :: rest =>
    if j = id then (j, sn, fc.set i c) :: rest
    else (j, sn, fc) :: heapSetField id i c rest

/-- Read field slot `i` of allocation `id` (for stating theorems). -/
def heapField (s : Factory) (id : Nat) (i : Nat) : Option FieldContent :=
  match heapFind s.heap id with
  | none => none
  | some (_, fc) => fc.get? i

/-- Number of allocations of struct `sname` performed so far (ghost). -/
def allocCount (s : Factory) (sname : String) : Nat :=
  (s.heap.filter (fun e => e.2.1 = sname)).length

/-! ## Processor hooks (the two built-ins)

`initBeanProcessors` installs `PopulateBeanProcessor` then `AopBeanProcessor`;
no scenario below registers a further processor (see
`goValIsBeanProcessor`), so the chain is exactly these two, in this order. -/

/-- `PopulateBeanProcessor.processBeforeInstantiation`: always nil. -/
def populateBeforeInstantiation (_name : String) (_t : Option TyRef) (s : Factory)
    : Option GoVal × Factory := (none, s)

/-- `AopBeanProcessor.processBeforeInstantiation`: always nil. -/
def aopBeforeInstantiation (_name : String) (_t : Option TyRef) (s : Factory)
    : Option GoVal × Factory := (none, s)

/-- `resolveBeforeInstantiation`: first non-nil processor result, else nil. -/
def resolveBeforeInstantiation (name : String) (t : Option TyRef) (s : Factory)
    : Option GoVal × Factory :=
  match populateBeforeInstantiation name t s with
  | (some b, s') => (some b, s')
  | (none, s') => aopBeforeInstantiation name t s'

/-- `AopBeanProcessor.wrapIfNecessary`: record the name in
`earlyProxyReferences` and return the bean unchanged (the repository's AOP
stage marks and substitutes, it generates no interception code).  The ghost
`wrapLog` records the invocation. -/
def wrapIfNecessary (name : String) (bean : GoVal) (s : Factory) : GoVal × Factory :=
  (bean, { s with
            earlyProxyReferences := smapInsert s.earlyProxyReferences name ()
            wrapLog := s.wrapLog ++ [name] })

/-- `PopulateBeanProcessor.processAfterInitialization`: always nil. -/
def populateAfterInitialization (_name : String) (_bean : GoVal) (s : Factory)
    : Option GoVal × Factory := (none, s)

/-- `AopBeanProcessor.processAfterInitialization`: skip when the name was
already wrapped on its early-reference path, else wrap. -/
def aopAfterInitialization (name : String) (bean : GoVal) (s : Factory)
    : Option GoVal × Factory :=
  if (proxyRead s name).isSome then (some bean, s)
  else
    let (b, s') := wrapIfNecessary name bean s
    (some b, s')

/-- The `processAfterInitialization` loop shared by `initializeBean` and by
the tier-3 closure: run the chain on the captured `wrapBean`, returning the
first non-nil result (else the last result). -/
def afterInitChain (name : String) (wrapBean : GoVal) (s : Factory)
    : Option GoVal × Factory :=
  match populateAfterInitialization name wrapBean s with
  | (some b, s') => (some b, s')
  | (none, s') => aopAfterInitialization name wrapBean s'

/-- `initializeBean`. -/
def initializeBean (name : String) (bean : GoVal) (_t : TyRef) (s : Factory)
    : Option GoVal × Factory :=
  afterInitChain name bean s

/-- Invocation of a tier-3 producer (the closure body installed by
`addSingletonFactory`); the ghost `factoryCallLog` records the invocation. -/
def invokeFactory (name : String) (p : Pending) (s : Factory)
    : Option GoVal × Factory :=
  afterInitChain name p.bean { s with factoryCallLog := s.factoryCallLog ++ [name] }

/-! ## Cache operations -/

/-- `getSingleton(beanName, allowEarlyReference)` (part_003 revision): tier 1,
then tier 2 unconditionally, then — only with `allowEarlyReference` — invoke
the tier-3 producer and memoize its result into tier 2.  Note that the
tier-3 entry is NOT cleared here. -/
def getSingleton (name : String) (allowEarly : Bool) (s : Factory)
    : Option GoVal × Factory :=
  match singletonRead s name with
  | some b => (some b, s)
  | none =>
    match earlyRead s name with
    | some b => (some b, s)
    | none =>
      if allowEarly then
        match factoryRead s name with
        | some p =>
          let (b?, s₁) := invokeFactory name p s
          match b? with
          | some b => (some b, pushSnap { s₁ with earlyMap := smapInsert s₁.earlyMap name b })
          | none => (none, pushSnap { s₁ with earlyMap := smapErase s₁.earlyMap name })
        | none => (none, s)
      else (none, s)

/-- `addSingleton`: nil out tiers 2 and 3, then commit to tier 1.  Writing
into a nil `singletonMap` (possible only after `RegisterBeanProcessor`'s
failure path) panics as in Go. -/
def addSingleton (name : String) (bean : GoVal) (s : Factory)
    : PRes Unit × Factory :=
  let s₁ := pushSnap { s with
                        earlyMap := smapErase s.earlyMap name
                        factoryMap := smapErase s.factoryMap name }
  if s₁.singletonMapNil then (.panicked "assignment to entry in nil map", s₁)
  else (.ok (), pushSnap { s₁ with singletonMap := smapInsert s₁.singletonMap name bean })

/-- `addSingletonFactory`: install the tier-3 producer capturing the early
bean value and its type. -/
def addSingletonFactory (name : String) (bean : GoVal) (t : TyRef) (s : Factory)
    : Factory :=
  pushSnap { s with factoryMap := smapInsert s.factoryMap name ⟨bean, t⟩ }

/-- `createBefore`: prototype beans skip the guard; a singleton already in
the in-progress set panics ("bean X is creating"), else it is marked. -/
def createBefore (name : String) (bt : BeanType) (s : Factory)
    : PRes Unit × Factory :=
  if isPrototype bt then (.ok (), s)
  else if (creatingRead s name).isSome then
    (.panicked ("bean " ++ name ++ " is creating"), s)
  else (.ok (), { s with creatingMap := smapInsert s.creatingMap name () })

/-- `createAfter` (run as a `defer`, so also on the panicking path). -/
def createAfter (name : String) (bt : BeanType) (s : Factory) : Factory :=
  if isPrototype bt then s
  else { s with creatingMap := smapErase s.creatingMap name }

/-! ## Name resolution -/

/-- `getBeanNameWithReflectType` (part_003 revision, `[]reflect.Type`
argument), iterating `tMap` in the model's insertion order: the first
registered entry whose stored type equals one of `types`. -/
def getBeanNameWithReflectType (s : Factory) (types : List TyRef) : String :=
  if s.tMapNil then "" else
  (s.tMap.find? (fun e =>
      match e.2 with
      | some t => types.contains t
      | none => false)).elim "" Prod.fst

/-- `hasAndGetDI`: the `di` tag's value and presence. -/
def hasAndGetDI (fld : Fld) : Option String := fld.di

/-- `PopulateBeanProcessor.getFieldBeanName` (second revision): directive
absent gives ""; explicit tag value, else type-directed lookup on the
pointer type and its element type; finally the candidate must be a key of
`tMap` or "" is returned.  No auto-registration happens here. -/
def getFieldBeanName (s : Factory) (fld : Fld) (ftPtr ft : TyRef) : String :=
  match hasAndGetDI fld with
  | none => ""
  | some v =>
    let cand := if v = "" then getBeanNameWithReflectType s [ftPtr, ft] else v
    if (tRead s cand).isSome then cand else ""

/-- `isStructBean`: the field's declared type is not a pointer type. -/
def isStructBean (ftPtr ft : TyRef) : Bool := ftPtr = ft

/-! ## The creation algorithm

The mutual recursion `populate → GetBean → createBean → populate` is closed
by a fuel parameter; every function below other than `getBeanAux` is
non-recursive and takes the recursive entry point as the argument `rec`
(`rec new name` is `GetNewBean name` when `new`, else `GetBean name`). -/

/-- Type of the recursive entry point. -/
abbrev RecFun : Type := Bool → String → Factory → PRes (Option GoVal) × Factory

/-- The `reflect.Value` store of one `processPropertyValues` field step:
applied to the recursive `GetBean`/`GetNewBean` result, it propagates a
panic, panics on a nil field bean (`reflect` zero `Value`), copies a value
into a struct field, stores the pointer into a pointer field, and panics
on `Addr()` when a non-pointer boxed value meets a pointer field. -/
def populateFieldSet (beanId : Nat) (i : Nat) (ftPtr ft : TyRef)
    (r : PRes (Option GoVal) × Factory) : PRes Unit × Factory :=
  match r with
  | (.panicked e, s₁) => (.panicked e, s₁)
  | (.ok none, s₁) =>
    (.panicked "reflect: call of reflect.Value.Addr on zero Value", s₁)
  | (.ok (some fv), s₁) =>
    if isStructBean ftPtr ft then
      (.ok (), { s₁ with heap := heapSetField beanId i (.copyOf (valId fv)) s₁.heap })
    else
      match fv with
      | .ptrV p =>
        (.ok (), { s₁ with heap := heapSetField beanId i (.refId p) s₁.heap })
      | .structV _ =>
        (.panicked "reflect: call of reflect.Value.Addr on unaddressable value", s₁)

/-- The body of one `processPropertyValues` field step after the
pointer/struct split: `isBean`, `getFieldBeanName` with the "field bean X
is not exist" panic, `GetNewBean`/`GetBean`, then the store. -/
def populateFieldCore (rec : RecFun) (beanId : Nat) (i : Nat) (fld : Fld)
    (ftPtr ft : TyRef) (s : Factory) : PRes Unit × Factory :=
  if ¬ isBeanTy ft then (.ok (), s)
  else
    let fieldBeanName := getFieldBeanName s fld ftPtr ft
    if fieldBeanName = "" then
      (.panicked ("field bean " ++ fld.fname ++ " is not exist"), s)
    else
      populateFieldSet beanId i ftPtr ft
        (if isStructBean ftPtr ft then rec true fieldBeanName s
         else rec false fieldBeanName s)

/-- The pointer/struct split of one `processPropertyValues` field step,
with the `allowPopulateStructBean` gate; then `populateFieldCore`. -/
def populateField (rec : RecFun) (beanId : Nat) (i : Nat) (fld : Fld) (s : Factory)
    : PRes Unit × Factory :=
  let ftPtr := fld.fty
  match ftPtr with
  | .ptr ft => populateFieldCore rec beanId i fld ftPtr ft s
  | _ =>
    if s.allowPopulateStructBean then populateFieldCore rec beanId i fld ftPtr ftPtr s
    else (.ok (), s)

/-- The field loop of `processPropertyValues` (fields already paired with
their indices); a panic aborts the loop and propagates. -/
def populateFields (rec : RecFun) (beanId : Nat) (flds : List (Nat × Fld)) (s : Factory)
    : PRes Unit × Factory :=
  match flds with
  | [] => (.ok (), s)
  | (i, fld) :: rest =>
    match populateField rec beanId i fld s with
    | (.panicked e, s₁) => (.panicked e, s₁)
    | (.ok _, s₁) => populateFields rec beanId rest s₁

/-- `populateBean`: the chain's `processPropertyValues` hooks —
`PopulateBeanProcessor` does the field work, `AopBeanProcessor`'s hook is a
no-op. -/
def populateBean (rec : RecFun) (beanId : Nat) (t : TyRef) (s : Factory)
    : PRes Unit × Factory :=
  populateFields rec beanId ((smapFind s.env (structNameOf t)).getD []).enum s

/-- Step 3 of `doCreateBean`: install the early (tier-3) exposure when
`allowEarlyReference`; a non-pointer registered type captures a boxed copy
(`bean.Interface()`), a pointer type captures the pointer itself.  Note the
step does not depend on the bean's kind. -/
def doCreateExpose (name : String) (t tPtr : TyRef) (id : Nat) (s₁ : Factory) : Factory :=
  if s₁.allowEarlyReference then
    if t = tPtr then
      match copyValue id s₁ with
      | (cid, s') => addSingletonFactory name (.structV cid) t s'
    else addSingletonFactory name (.ptrV id) t s₁
  else s₁

/-- The reconciliation step of `doCreateBean`: with early references
enabled, a non-nil `getSingleton(name, false)` result (the consumed early
reference) wins over the initialized bean. -/
def doCreateReconcile (name : String) (bean2? : Option GoVal) (s₄ : Factory)
    : Option GoVal × Factory :=
  if s₄.allowEarlyReference then
    match getSingleton name false s₄ with
    | (some r, s') => (some r, s')
    | (none, s') => (bean2?, s')
  else (bean2?, s₄)

/-- The return conversion of `doCreateBean`: a non-pointer registered type
yields a boxed copy (`Elem().Interface()`) of a pointer result. -/
def doCreateFinish (t tPtr : TyRef) (resBean? : Option GoVal) (s₅ : Factory)
    : PRes (Option GoVal) × Factory :=
  match resBean? with
  | none => (.ok none, s₅)
  | some rv =>
    if t = tPtr then
      match rv with
      | .ptrV p =>
        match copyValue p s₅ with
        | (cid, s₆) => (.ok (some (.structV cid)), s₆)
      | .structV _ => (.ok (some rv), s₅)
    else (.ok (some rv), s₅)

/-- `doCreateBean` (part_003): dereference the registered type (a nil stored
type panics at `tPtr.Kind()`), check `isBean`, allocate, expose early when
`allowEarlyReference` (note: regardless of the bean's kind), populate,
initialize, reconcile against the early reference, and convert the result
back to a non-pointer value when the registered type was not a pointer. -/
def doCreateBean (rec : RecFun) (name : String) (tPtr? : Option TyRef) (s : Factory)
    : PRes (Option GoVal) × Factory :=
  match tPtr? with
  | none => (.panicked "runtime error: invalid memory address or nil pointer dereference", s)
  | some tPtr =>
    let t := match tPtr with | .ptr e => e | _ => tPtr
    if ¬ isBeanTy t then (.ok none, s)
    else
      match allocate (structNameOf t) s with
      | (id, s₁) =>
        match populateBean rec id t (doCreateExpose name t tPtr id s₁) with
        | (.panicked e, s₃) => (.panicked e, s₃)
        | (.ok _, s₃) =>
          match initializeBean name (.ptrV id) t s₃ with
          | (bean2?, s₄) =>
            match doCreateReconcile name bean2? s₄ with
            | (resBean?, s₅) => doCreateFinish t tPtr resBean? s₅

/-- The body of `createBean` after the guard: the `tMap` lookup (a missing
name yields nil), the before-instantiation short-circuit and
`doCreateBean`.  The `new` flag forwarded by the containers has no effect
in this revision's body. -/
def createBeanBody (rec : RecFun) (name : String) (s₁ : Factory)
    : PRes (Option GoVal) × Factory :=
  match tRead s₁ name with
  | none => (.ok none, s₁)
  | some tPtr? =>
    match resolveBeforeInstantiation name tPtr? s₁ with
    | (some b, s') => (.ok (some b), s')
    | (none, s') => doCreateBean rec name tPtr? s'

/-- `createBean`: the in-progress guard, the body, and the deferred
`createAfter` (which runs on the panicking path of the body too, but not
when `createBefore` itself panicked — the defer is registered after it). -/
def createBean (rec : RecFun) (name : String) (bt : BeanType) (_new : Bool) (s : Factory)
    : PRes (Option GoVal) × Factory :=
  match createBefore name bt s with
  | (.panicked e, s') => (.panicked e, s')
  | (.ok _, s₁) =>
    match createBeanBody rec name s₁ with
    | (r, s₂) => (r, createAfter name bt s₂)

/-- The creation-and-commit step of `SingletonContainer.Get`. -/
def singletonContainerCreate (rec : RecFun) (name : String) (new : Bool) (s' : Factory)
    : PRes (Option GoVal) × Factory :=
  match createBean rec name Singleton new s' with
  | (.panicked e, s'') => (.panicked e, s'')
  | (.ok none, s'') => (.ok none, s'')
  | (.ok (some b), s'') =>
    if new then (.ok (some b), s'')
    else
      match addSingleton name b s'' with
      | (.panicked e, s₃) => (.panicked e, s₃)
      | (.ok _, s₃) => (.ok (some b), s₃)

/-- `SingletonContainer.Get(beanName, new)` (container.go revision with the
`new` flag): consult the cache unless `new`, then create (and commit to
tier 1 unless `new`). -/
def singletonContainerGet (rec : RecFun) (name : String) (new : Bool) (s : Factory)
    : PRes (Option GoVal) × Factory :=
  if new then singletonContainerCreate rec name new s
  else
    match getSingleton name s.allowEarlyReference s with
    | (some b, s₁) => (.ok (some b), s₁)
    | (none, s₁) => singletonContainerCreate rec name new s₁

/-- `PrototypeContainer.Get`: straight to `createBean`, no cache commit. -/
def prototypeContainerGet (rec : RecFun) (name : String) (new : Bool) (s : Factory)
    : PRes (Option GoVal) × Factory :=
  createBean rec name Prototype new s

/-- `GetBean`/`GetNewBean` dispatch: unknown names yield nil; singleton
kind goes to the singleton container, otherwise the prototype container.
part_003's `GetBean` does NOT recover panics (its recover block is
commented out), so a panic propagates to the caller. -/
def dispatchGo (rec : RecFun) (new : Bool) (name : String) (s : Factory)
    : PRes (Option GoVal) × Factory :=
  let bt := btRead s name
  if bt = Invalid then (.ok none, s)
  else if isSingleton bt then singletonContainerGet rec name new s
  else prototypeContainerGet rec name new s

/-- Fuel-indexed recursive entry point. -/
def getBeanAux : Nat → Bool → String → Factory → PRes (Option GoVal) × Factory
  | 0, _, _, s => (.panicked "out of fuel", s)
  | n + 1, new, name, s => dispatchGo (fun nw nm => getBeanAux n nw nm) new name s

/-- `GetBean` at a given recursion fuel. -/
def GetBean (fuel : Nat) (name : String) (s : Factory) : PRes (Option GoVal) × Factory :=
  getBeanAux fuel false name s

/-- `GetNewBean` at a given recursion fuel (the containers' `new = true`
path; used by the populate processor for non-pointer struct fields). -/
def GetNewBean (fuel : Nat) (name : String) (s : Factory) : PRes (Option GoVal) × Factory :=
  getBeanAux fuel true name s

/-! ## Registration -/

/-- The `i interface{}` argument of `NewClass`: a `reflect.Type` value, an
ordinary (typed) instance such as `(*A)(nil)`, or the untyped nil — for
which `reflect.TypeOf(i)` is the nil `reflect.Type`. -/
inductive RegArg where
  | typeArg (t : TyRef)
  | instArg (t : TyRef)
  | nilArg
deriving DecidableEq, Repr

/-- The stored `reflect.Type` for a registration argument. -/
def regArgType : RegArg → Option TyRef
  | .typeArg t => some t
  | .instArg t => some t
  | .nilArg => none

/-- `Register`: reject an unrecognized kind, reject a duplicate name, then
store the kind and the (possibly nil) type.  The result's `Option String`
is the returned Go `error` (`none` = success); the `PRes` layer carries the
panic that Go raises when writing into a nil `tMap`.  The `btMap` write
precedes the `tMap` write, as in the source. -/
def Register (name : String) (arg : RegArg) (bt : BeanType) (s : Factory)
    : PRes (Option String) × Factory :=
  if ¬ (isSingleton bt ∨ isPrototype bt) then
    (.ok (some "beanType does not satisfy the requirement"), s)
  else if isRegistered s name then
    (.ok (some "beanName was registered by other bean"), s)
  else
    let s₁ := { s with btMap := smapInsert s.btMap name bt }
    if s₁.tMapNil then (.panicked "assignment to entry in nil map", s₁)
    else (.ok none, { s₁ with tMap := smapInsert s₁.tMap name (regArgType arg) })

/-- The `bp, ok := bpBean.(BeanProcessor)` capability check.  The bean
values of this model are plain data aggregates produced by `reflect.New`;
no such value implements the three-method `BeanProcessor` interface, so
the assertion always fails (`ok = false`), which is exactly the path the
sources exercise for data beans. -/
def goValIsBeanProcessor (_ : Option GoVal) : Bool := false

/-- `RegisterBeanProcessor`: force the kind to Singleton, register, build
the bean through `GetBean`, and check the capability.  On failure the
source sets `bc.tMap = nil` and `bc.singletonMap = nil` wholesale and
deletes only the `btMap` entry, then reports the error. -/
def RegisterBeanProcessor (fuel : Nat) (name : String) (arg : RegArg) (s : Factory)
    : PRes (Option String) × Factory :=
  match Register name arg Singleton s with
  | (.panicked e, s') => (.panicked e, s')
  | (.ok (some e), s') => (.ok (some e), s')
  | (.ok none, s₁) =>
    match GetBean fuel name s₁ with
    | (.panicked e, s₂) => (.panicked e, s₂)
    | (.ok bpBean, s₂) =>
      if goValIsBeanProcessor bpBean then (.ok none, s₂)
      else
        (.ok (some ("bean " ++ name ++ " is not a bean processor")),
          { s₂ with
              tMapNil := true
              tMap := []
              singletonMapNil := true
              singletonMap := []
              btMap := smapErase s₂.btMap name })

/-- `NewBeanFactory`: empty maps, options as given. -/
def newFactory (env : Smap (List Fld)) (aer apsb : Bool) : Factory :=
  { env := env
    btMap := []
    tMapNil := false
    tMap := []
    singletonMapNil := false
    singletonMap := []
    earlyMap := []
    factoryMap := []
    creatingMap := []
    earlyProxyReferences := []
    allowEarlyReference := aer
    allowPopulateStructBean := apsb
    nextId := 0
    heap := []
    wrapLog := []
    factoryCallLog := []
    cacheTrace := [] }

/-! ## Order-parameterized type-directed lookup

`getBeanNameWithReflectType` ranges over the Go map `bc.tMap`, whose
iteration order is unspecified and may differ between iterations.  To
reason about that nondeterminism the scan is restated below over an
explicit iteration order: any permutation of the map's keys is a possible
order. -/

/-- The key list of an `Smap`. -/
def smapKeys {α : Type} (m : Smap α) : List String := m.map Prod.fst

/-- Whether `o` is a possible Go map iteration order for `m`: each key
visited exactly once, in any order. -/
def isIterationOrder {α : Type} (o : List String) (m : Smap α) : Prop :=
  o.Perm (smapKeys m)

/-- `getBeanNameWithReflectType` with the map iteration order made
explicit: scan the keys in order `o`, returning the first whose stored
type equals one of `types` ("" if none). -/
def getBeanNameWithReflectTypeOrd (o : List String) (m : Smap (Option TyRef))
    (types : List TyRef) : String :=
  match o with
  | [] => ""
  | k :: rest =>
    match smapFind m k with
    | some (some t) =>
      if types.contains t then k else getBeanNameWithReflectTypeOrd rest m types
    | _ => getBeanNameWithReflectTypeOrd rest m types

/-! ## Concrete scenarios

The shapes and registrations used by the concrete claims: they follow the
demonstration `main.go` (mutually referencing singletons, explicit `di`
names, pointer-typed registrations `(*A)(nil)`). -/

/-- Two struct shapes `A { B *B di:"b" }` and `B { A *A di:"a" }`. -/
def envAB : Smap (List Fld) :=
  [("A", [⟨"B", some "b", .ptr (.strukt "B")⟩]),
   ("B", [⟨"A", some "a", .ptr (.strukt "A")⟩])]

/-- A factory with `a ↦ *A` and `b ↦ *B` registered as singletons, the
`allowEarlyReference` option as given. -/
def regAB (aer : Bool) : Factory :=
  let s0 := newFactory envAB aer false
  let s1 := (Register "a" (.instArg (.ptr (.strukt "A"))) Singleton s0).2
  (Register "b" (.instArg (.ptr (.strukt "B"))) Singleton s1).2

/-- Two field-free shapes: `P` (registered prototype) and `S` (singleton). -/
def envPS : Smap (List Fld) := [("P", []), ("S", [])]

/-- A factory with `p ↦ *P` prototype and `s ↦ *S` singleton. -/
def regPS (aer : Bool) : Factory :=
  let s0 := newFactory envPS aer false
  let s1 := (Register "p" (.instArg (.ptr (.strukt "P"))) Prototype s0).2
  (Register "s" (.instArg (.ptr (.strukt "S"))) Singleton s1).2

/-- Shape `X { B *Y di:"" }` where no registration has type `*Y` or `Y`. -/
def envXY : Smap (List Fld) :=
  [("X", [⟨"B", some "", .ptr (.strukt "Y")⟩]), ("Y", [])]

/-- A factory with only `x ↦ *X` registered (singleton). -/
def regX : Factory :=
  (Register "x" (.instArg (.ptr (.strukt "X"))) Singleton (newFactory envXY false false)).2

/-- Shape `W { F *V di:"z" }`; `z` is registered with a primitive type, so
`GetBean("z")` yields nil (`isBean` fails). -/
def envWZ : Smap (List Fld) := [("W", [⟨"F", some "z", .ptr (.strukt "V")⟩])]

/-- A factory with `w ↦ *W` and `z ↦ int`, both singletons. -/
def regWZ : Factory :=
  let s0 := newFactory envWZ false false
  let s1 := (Register "w" (.instArg (.ptr (.strukt "W"))) Singleton s0).2
  (Register "z" (.instArg (.prim "int")) Singleton s1).2

/-- Field-free shapes `X` and `PR` for the processor-registration scenario. -/
def envC6 : Smap (List Fld) := [("X", []), ("PR", [])]

/-- A factory with singleton `x ↦ *X` registered AND already constructed
(cached in tier 1), before `RegisterBeanProcessor` is attempted. -/
def c6pre : Factory :=
  let s0 := newFactory envC6 false false
  let s1 := (Register "x" (.instArg (.ptr (.strukt "X"))) Singleton s0).2
  (GetBean 5 "x" s1).2

/-- The concrete `tMap` with two definitions of the same type, for the
nondeterministic type-directed lookup. -/
def tMapXY : Smap (Option TyRef) :=
  [("x", some (.ptr (.strukt "T"))), ("y", some (.ptr (.strukt "T")))]

/-! ## Invariant and preservation relation -/

/-- Ghost count of tier-3 producer invocations for a name. -/
def producerCalls (s : Factory) (n : String) : Nat :=
  s.factoryCallLog.count n

/-- The cache-discipline invariant maintained by `Register`, `GetBean` and
`GetNewBean`: the tier-1 map has not been nil-ed out, and each name's
tier-3 producer has run at most once — with the run recorded by a live
tier-2 or tier-1 entry for the name. -/
def Inv (s : Factory) : Prop :=
  s.singletonMapNil = false ∧
  ∀ n, producerCalls s n ≤ 1 ∧
    (producerCalls s n = 1 → earlyRead s n ≠ none ∨ singletonRead s n ≠ none)

/-- What one interpreter step preserves: the registry and options are
untouched, allocation identifiers only grow, cache entries of
non-singleton-kind names are untouched (tier 3 under the additional
proviso that early exposure is off), and `Inv` is preserved. -/
structure Pres (s s' : Factory) : Prop where
  env_eq : s'.env = s.env
  aer_eq : s'.allowEarlyReference = s.allowEarlyReference
  apsb_eq : s'.allowPopulateStructBean = s.allowPopulateStructBean
  bt_eq : s'.btMap = s.btMap
  tnil_eq : s'.tMapNil = s.tMapNil
  t_eq : s'.tMap = s.tMap
  next_mono : s.nextId ≤ s'.nextId
  frame : ∀ n, btRead s n ≠ Singleton →
    singletonRead s' n = singletonRead s n ∧ earlyRead s' n = earlyRead s n ∧
    (s.allowEarlyReference = false → factoryRead s' n = factoryRead s n)
  inv : Inv s → Inv s'

/-- `Pres` for every result of a recursive entry point. -/
def PresRec (rec : RecFun) : Prop :=
  ∀ nw nm s, Pres s (rec nw nm s).2

/-! # Theorems -/

/-- C1.  Cyclic singletons with early references enabled: `GetBean "a"`
returns the pointer to allocation 0; following the injected fields,
`a.B` is the pointer to allocation 1 and `a.B.A` is the pointer to
allocation 0 — the very instance returned; and exactly one aggregate of
shape `A` is ever allocated during the whole resolution. -/
theorem c1_cycle_resolution_identity :
    (GetBean 10 "a" (regAB true)).1 = .ok (some (.ptrV 0)) ∧
    heapField (GetBean 10 "a" (regAB true)).2 0 0 = some (.refId 1) ∧
    heapField (GetBean 10 "a" (regAB true)).2 1 0 = some (.refId 0) ∧
    allocCount (GetBean 10 "a" (regAB true)).2 "A" = 1 := by
  refine ⟨rfl, rfl, rfl, rfl⟩

/-- C2, counterexample.  With early references disabled, `GetBean "a"` on
the cyclic pair does NOT report absence: the in-progress guard's panic
("bean a is creating") escapes `GetBean`, whose recover block is commented
out in this revision. -/
theorem c2_counterexample :
    (GetBean 10 "a" (regAB false)).1 ≠ .ok none ∧
    (GetBean 10 "a" (regAB false)).1 = .panicked "bean a is creating" := by
  refine ⟨by decide, rfl⟩

/-- C2, amended.  The cycle is detected via the in-progress set and raises
the cyclic-creation panic; the call terminates (it does not loop), no
partially populated object is handed out, and the deferred `createAfter`
has cleaned the in-progress set — but the panic propagates out of
`GetBean` instead of being recovered into a nil result. -/
theorem c2_cycle_rejection_panics :
    (GetBean 10 "a" (regAB false)).1 = .panicked "bean a is creating" ∧
    creatingRead (GetBean 10 "a" (regAB false)).2 "a" = none ∧
    creatingRead (GetBean 10 "a" (regAB false)).2 "b" = none ∧
    singletonRead (GetBean 10 "a" (regAB false)).2 "a" = none := by
  refine ⟨rfl, rfl, rfl, rfl⟩

/-- C3, counterexample.  During the cyclic resolution there is an instant —
recorded in the ghost cache trace right after the tier-3 producer's result
is memoized into tier 2 — at which BOTH the tier-2 and the tier-3 map hold
a live entry for "a": `getSingleton` memoizes into `earlyMap` without
clearing `factoryMap`. -/
theorem c3_counterexample :
    ∃ c ∈ (GetBean 10 "a" (regAB true)).2.cacheTrace,
      (smapFind c.t2 "a").isSome ∧ (smapFind c.t3 "a").isSome := by
  decide

/-- C5, counterexample.  A field with a `di` directive, no explicit name
and a declared type matching no registered definition is NOT resolved by
auto-registering the bare type name: `processPropertyValues` panics
("field bean B is not exist"), the enclosing creation does not continue,
and no definition for "Y" is ever registered. -/
theorem c5_counterexample :
    (GetBean 6 "x" regX).1 = .panicked "field bean B is not exist" ∧
    tRead (GetBean 6 "x" regX).2 "Y" = none ∧
    tRead (GetBean 6 "x" regX).2 "B" = none := by
  refine ⟨rfl, rfl, rfl⟩

/-- C6, evaluation at the failing input.  `c6pre` holds a registered and
already-cached singleton `x`; registering the non-processor bean `pr`
reports the capability error but nils out the whole `tMap` and
`singletonMap`: afterwards `x`'s kind survives in `btMap` while its type
and cached instance are gone, and `GetBean "x"` — which returned the
cached instance before the call — now returns nil. -/
theorem c6_rollback_destroys_factory_state :
    (GetBean 5 "x" c6pre).1 = .ok (some (.ptrV 0)) ∧
    (RegisterBeanProcessor 5 "pr" (.instArg (.ptr (.strukt "PR"))) c6pre).1 =
      .ok (some "bean pr is not a bean processor") ∧
    (RegisterBeanProcessor 5 "pr" (.instArg (.ptr (.strukt "PR"))) c6pre).2.tMapNil = true ∧
    (RegisterBeanProcessor 5 "pr" (.instArg (.ptr (.strukt "PR"))) c6pre).2.singletonMapNil = true ∧
    btRead (RegisterBeanProcessor 5 "pr" (.instArg (.ptr (.strukt "PR"))) c6pre).2 "x" = Singleton ∧
    (GetBean 5 "x" (RegisterBeanProcessor 5 "pr" (.instArg (.ptr (.strukt "PR"))) c6pre).2).1 =
      .ok none := by
  refine ⟨rfl, rfl, rfl, rfl, rfl, rfl⟩

/-- C7, counterexample.  With `allowEarlyReference = true`, a `GetBean` for
the prototype name `p` writes the tier-3 cache: `doCreateBean` installs a
factory entry for `p` — capturing precisely the returned instance, so the
factory retains a reference to it — although no tier held an entry for `p`
before the call. -/
theorem c7_counterexample :
    factoryRead (regPS true) "p" = none ∧
    (GetBean 5 "p" (regPS true)).1 = .ok (some (.ptrV 0)) ∧
    factoryRead (GetBean 5 "p" (regPS true)).2 "p" = some ⟨.ptrV 0, .strukt "P"⟩ := by
  refine ⟨rfl, rfl, rfl⟩

/-- C8, counterexample.  Two valid Go map iteration orders over the same
registration state give different results of the type-directed lookup when
two registered definitions share the candidate type — the scan is neither
deterministic nor first-registered-wins. -/
theorem c8_counterexample :
    isIterationOrder ["x", "y"] tMapXY ∧
    isIterationOrder ["y", "x"] tMapXY ∧
    getBeanNameWithReflectTypeOrd ["x", "y"] tMapXY [.ptr (.strukt "T")] ≠
      getBeanNameWithReflectTypeOrd ["y", "x"] tMapXY [.ptr (.strukt "T")] := by
  refine ⟨.refl _, ?_, by decide⟩
  exact .swap _ _ _

/-- C9, counterexample.  The AOP already-wrapped bookkeeping is not scoped
to an individual construction: after a first prototype construction of `p`
has wrapped once, a second, separate construction of `p` performs NO wrap
at all (the wrap log still holds a single entry for `p`), contradicting
"a later, separate construction of a bean under the same name is wrapped
again". -/
theorem c9_counterexample :
    (GetBean 5 "p" (regPS false)).2.wrapLog = ["p"] ∧
    (GetBean 5 "p" (GetBean 5 "p" (regPS false)).2).1 = .ok (some (.ptrV 1)) ∧
    (GetBean 5 "p" (GetBean 5 "p" (regPS false)).2).2.wrapLog = ["p"] := by
  refine ⟨rfl, rfl, rfl⟩

/-! ## Association-list lemmas -/

theorem smapFind_insert {α : Type} (m : Smap α) (k : String) (v : α) (n : String) :
    smapFind (smapInsert m k v) n = if k = n then some v else smapFind m n := by
  induction m with
  | nil => simp [smapInsert, smapFind]
  | cons e rest ih =>
    obtain ⟨k', v'⟩ := e
    by_cases hk : k' = k
    · subst hk
      simp only [smapInsert, if_pos rfl, smapFind]
      by_cases hn : k' = n <;> simp [hn]
    · simp only [smapInsert, if_neg hk, smapFind]
      by_cases hn : k' = n
      · subst hn
        have : ¬ k = k' := fun h => hk h.symm
        simp [this]
      · simp [hn, ih]

theorem smapFind_erase {α : Type} (m : Smap α) (k : String) (n : String) :
    smapFind (smapErase m k) n = if k = n then none else smapFind m n := by
  induction m with
  | nil => simp [smapErase, smapFind]
  | cons e rest ih =>
    obtain ⟨k', v'⟩ := e
    by_cases hk : k' = k
    · subst hk
      simp only [smapErase, if_pos rfl]
      by_cases hn : k' = n
      · subst hn; simp [ih]
      · simp [hn, ih, smapFind]
    · simp only [smapErase, if_neg hk, smapFind]
      by_cases hn : k' = n
      · subst hn
        have : ¬ k = k' := fun h => hk h.symm
        simp [this]
      · simp [hn, ih]

theorem smapFind_mem_keys {α : Type} {m : Smap α} {k : String} {v : α}
    (h : smapFind m k = some v) : k ∈ smapKeys m := by
  induction m with
  | nil => simp [smapFind] at h
  | cons e rest ih =>
    obtain ⟨k', v'⟩ := e
    by_cases hk : k' = k
    · subst hk; simp [smapKeys]
    · simp only [smapFind, if_neg hk] at h
      simp [smapKeys] at ih ⊢
      exact Or.inr (ih h)

/-! ## Congruence helpers for the invariant and the reads -/

theorem btRead_congr {s s' : Factory} (h : s'.btMap = s.btMap) (n : String) :
    btRead s' n = btRead s n := by
  unfold btRead; rw [h]

theorem singletonRead_congr {s s' : Factory} (h1 : s'.singletonMapNil = s.singletonMapNil)
    (h2 : s'.singletonMap = s.singletonMap) (n : String) :
    singletonRead s' n = singletonRead s n := by
  unfold singletonRead; rw [h1, h2]

theorem inv_congr {s s' : Factory} (h1 : s'.singletonMapNil = s.singletonMapNil)
    (h2 : s'.singletonMap = s.singletonMap) (h3 : s'.earlyMap = s.earlyMap)
    (h4 : s'.factoryCallLog = s.factoryCallLog) (h : Inv s) : Inv s' := by
  obtain ⟨hnil, hc⟩ := h
  refine ⟨h1.trans hnil, fun n => ?_⟩
  have hp : producerCalls s' n = producerCalls s n := by unfold producerCalls; rw [h4]
  have he : earlyRead s' n = earlyRead s n := by unfold earlyRead; rw [h3]
  rw [hp, he, singletonRead_congr h1 h2]
  exact hc n

/-! ## Basic `Pres` lemmas -/

theorem pres_refl (s : Factory) : Pres s s :=
  ⟨rfl, rfl, rfl, rfl, rfl, rfl, le_refl _, fun _ _ => ⟨rfl, rfl, fun _ => rfl⟩, id⟩

theorem pres_trans {s s' s'' : Factory} (h1 : Pres s s') (h2 : Pres s' s'') : Pres s s'' := by
  refine ⟨h2.env_eq.trans h1.env_eq, h2.aer_eq.trans h1.aer_eq,
    h2.apsb_eq.trans h1.apsb_eq, h2.bt_eq.trans h1.bt_eq, h2.tnil_eq.trans h1.tnil_eq,
    h2.t_eq.trans h1.t_eq, le_trans h1.next_mono h2.next_mono, fun n hn => ?_,
    fun hi => h2.inv (h1.inv hi)⟩
  have hb : btRead s' n ≠ Singleton := by rw [btRead_congr h1.bt_eq]; exact hn
  obtain ⟨f1, f2, f3⟩ := h1.frame n hn
  obtain ⟨g1, g2, g3⟩ := h2.frame n hb
  refine ⟨g1.trans f1, g2.trans f2, fun haer => ?_⟩
  exact (g3 (h1.aer_eq.trans haer)).trans (f3 haer)

/-- `Pres` for a step that leaves the registry, options, both cache-nil
flags, all three tier maps and the producer log untouched and does not
shrink `nextId`. -/
theorem pres_untouched {s s' : Factory}
    (henv : s'.env = s.env) (haer : s'.allowEarlyReference = s.allowEarlyReference)
    (hapsb : s'.allowPopulateStructBean = s.allowPopulateStructBean)
    (hbt : s'.btMap = s.btMap) (htn : s'.tMapNil = s.tMapNil) (ht : s'.tMap = s.tMap)
    (hnext : s.nextId ≤ s'.nextId)
    (hsn : s'.singletonMapNil = s.singletonMapNil) (hsm : s'.singletonMap = s.singletonMap)
    (he : s'.earlyMap = s.earlyMap) (hf : s'.factoryMap = s.factoryMap)
    (hlog : s'.factoryCallLog = s.factoryCallLog) : Pres s s' := by
  refine ⟨henv, haer, hapsb, hbt, htn, ht, hnext, fun n _ => ?_, inv_congr hsn hsm he hlog⟩
  refine ⟨singletonRead_congr hsn hsm n, ?_, fun _ => ?_⟩
  · unfold earlyRead; rw [he]
  · unfold factoryRead; rw [hf]

/-! ## Specifications of the non-recursive chain pieces -/

theorem afterInitChain_spec (name : String) (w : GoVal) (s : Factory) :
    (afterInitChain name w s).1 = some w ∧
    ((afterInitChain name w s).2 = s ∨
      (afterInitChain name w s).2 =
        { s with earlyProxyReferences := smapInsert s.earlyProxyReferences name ()
                 wrapLog := s.wrapLog ++ [name] }) := by
  unfold afterInitChain populateAfterInitialization aopAfterInitialization wrapIfNecessary
  by_cases h : (proxyRead s name).isSome <;> simp [h]

theorem pres_afterInitChain (name : String) (w : GoVal) (s : Factory) :
    Pres s (afterInitChain name w s).2 := by
  rcases (afterInitChain_spec name w s).2 with h | h <;> rw [h]
  · exact pres_refl s
  · exact pres_untouched rfl rfl rfl rfl rfl rfl (le_refl _) rfl rfl rfl rfl rfl

theorem initializeBean_spec (name : String) (w : GoVal) (t : TyRef) (s : Factory) :
    (initializeBean name w t s).1 = some w ∧ Pres s (initializeBean name w t s).2 :=
  ⟨(afterInitChain_spec name w s).1, pres_afterInitChain name w s⟩

theorem resolveBeforeInstantiation_eq (name : String) (t : Option TyRef) (s : Factory) :
    resolveBeforeInstantiation name t s = (none, s) := rfl

theorem getSingleton_false_eq (name : String) (s : Factory) :
    getSingleton name false s =
      ((singletonRead s name).elim (earlyRead s name) some, s) := by
  unfold getSingleton
  cases singletonRead s name with
  | some b => rfl
  | none => cases earlyRead s name with
    | some b => rfl
    | none => rfl

theorem invokeFactory_spec (name : String) (p : Pending) (s : Factory) :
    (invokeFactory name p s).1 = some p.bean ∧
    (invokeFactory name p s).2.env = s.env ∧
    (invokeFactory name p s).2.allowEarlyReference = s.allowEarlyReference ∧
    (invokeFactory name p s).2.allowPopulateStructBean = s.allowPopulateStructBean ∧
    (invokeFactory name p s).2.btMap = s.btMap ∧
    (invokeFactory name p s).2.tMapNil = s.tMapNil ∧
    (invokeFactory name p s).2.tMap = s.tMap ∧
    (invokeFactory name p s).2.nextId = s.nextId ∧
    (invokeFactory name p s).2.singletonMapNil = s.singletonMapNil ∧
    (invokeFactory name p s).2.singletonMap = s.singletonMap ∧
    (invokeFactory name p s).2.earlyMap = s.earlyMap ∧
    (invokeFactory name p s).2.factoryMap = s.factoryMap ∧
    (invokeFactory name p s).2.factoryCallLog = s.factoryCallLog ++ [name] := by
  unfold invokeFactory afterInitChain populateAfterInitialization aopAfterInitialization
    wrapIfNecessary
  by_cases h :
      (proxyRead { s with factoryCallLog := s.factoryCallLog ++ [name] } name).isSome <;>
    simp [h]

/-- `getSingleton` misses when no tier holds the name (the tier-3 check
being reached only when `allowEarly`). -/
theorem getSingleton_miss (name : String) (ae : Bool) {s : Factory}
    (h1 : singletonRead s name = none) (h2 : earlyRead s name = none)
    (h3 : ae = true → factoryRead s name = none) :
    getSingleton name ae s = (none, s) := by
  unfold getSingleton
  rw [h1, h2]
  cases ae with
  | false => rfl
  | true => rw [if_pos rfl, h3 rfl]

/-- `getSingleton` hits tier 1 directly. -/
theorem getSingleton_hit1 (name : String) (ae : Bool) {s : Factory} {v : GoVal}
    (h : singletonRead s name = some v) : getSingleton name ae s = (some v, s) := by
  unfold getSingleton; rw [h]

/-- `getSingleton` hits tier 2 when tier 1 misses. -/
theorem getSingleton_hit2 (name : String) (ae : Bool) {s : Factory} {v : GoVal}
    (h1 : singletonRead s name = none) (h2 : earlyRead s name = some v) :
    getSingleton name ae s = (some v, s) := by
  unfold getSingleton; rw [h1, h2]

/-- `Pres` for `getSingleton`; the producer path exists only for
singleton-kind names (the `allowEarly = true` call sites). -/
theorem getSingleton_pres (name : String) (ae : Bool) (s : Factory)
    (hk : ae = true → btRead s name = Singleton) :
    Pres s (getSingleton name ae s).2 := by
  unfold getSingleton
  cases hs : singletonRead s name with
  | some b => exact pres_refl s
  | none =>
    cases he : earlyRead s name with
    | some b => exact pres_refl s
    | none =>
      cases ae with
      | false => exact pres_refl s
      | true =>
        rw [if_pos rfl]
        cases hf : factoryRead s name with
        | none => exact pres_refl s
        | some p =>
          obtain ⟨h1, h2, h3, h4, h5, h6, h7, h8, h9, h10, h11, h12, h13⟩ :=
            invokeFactory_spec name p s
          rcases hi : invokeFactory name p s with ⟨b?, s₁⟩
          rw [hi] at h1 h2 h3 h4 h5 h6 h7 h8 h9 h10 h11 h12 h13
          replace h1 : b? = some p.bean := h1
          replace h2 : s₁.env = s.env := h2
          replace h3 : s₁.allowEarlyReference = s.allowEarlyReference := h3
          replace h4 : s₁.allowPopulateStructBean = s.allowPopulateStructBean := h4
          replace h5 : s₁.btMap = s.btMap := h5
          replace h6 : s₁.tMapNil = s.tMapNil := h6
          replace h7 : s₁.tMap = s.tMap := h7
          replace h8 : s₁.nextId = s.nextId := h8
          replace h9 : s₁.singletonMapNil = s.singletonMapNil := h9
          replace h10 : s₁.singletonMap = s.singletonMap := h10
          replace h11 : s₁.earlyMap = s.earlyMap := h11
          replace h12 : s₁.factoryMap = s.factoryMap := h12
          replace h13 : s₁.factoryCallLog = s.factoryCallLog ++ [name] := h13
          subst h1
          simp only [hi]
          show Pres s (pushSnap { s₁ with earlyMap := smapInsert s₁.earlyMap name p.bean })
          refine ⟨h2, h3, h4, h5, h6, h7, le_of_eq h8.symm, fun n hn => ?_, fun hi' => ?_⟩
          · have hne : n ≠ name := fun he' => hn (he' ▸ hk rfl)
            refine ⟨singletonRead_congr h9 h10 n, ?_, fun _ => ?_⟩
            · show smapFind (smapInsert s₁.earlyMap name p.bean) n = earlyRead s n
              rw [smapFind_insert, if_neg (fun he' => hne he'.symm), h11]; rfl
            · show smapFind s₁.factoryMap n = factoryRead s n
              rw [h12]; rfl
          · obtain ⟨hnil, hcount⟩ := hi'
            refine ⟨h9.trans hnil, fun n => ?_⟩
            have hpc : producerCalls
                (pushSnap { s₁ with earlyMap := smapInsert s₁.earlyMap name p.bean }) n =
                producerCalls s n + (if name = n then 1 else 0) := by
              show List.count n (s₁.factoryCallLog) = _
              rw [h13, producerCalls, List.count_append]
              simp [List.count_cons]
            have her : earlyRead
                (pushSnap { s₁ with earlyMap := smapInsert s₁.earlyMap name p.bean }) n =
                if name = n then some p.bean else earlyRead s n := by
              show smapFind (smapInsert s₁.earlyMap name p.bean) n = _
              rw [smapFind_insert, h11]; rfl
            have hsr : singletonRead
                (pushSnap { s₁ with earlyMap := smapInsert s₁.earlyMap name p.bean }) n =
                singletonRead s n := singletonRead_congr h9 h10 n
            rw [hpc, her, hsr]
            by_cases hn : n = name
            · subst hn
              have h0 : producerCalls s n = 0 := by
                rcases Nat.lt_or_ge (producerCalls s n) 1 with h' | h'
                · omega
                · have h1' := (hcount n).1
                  have : producerCalls s n = 1 := by omega
                  rcases (hcount n).2 this with hc | hc
                  · exact absurd he hc
                  · exact absurd hs hc
              simp [h0]
            · have hnn : ¬ (name = n) := fun he' => hn he'.symm
              simp only [if_neg hn, if_neg hnn, Nat.add_zero]
              exact hcount n

/-- `addSingleton` commits the bean to tier 1 and clears tiers 2 and 3 for
the name; with a live tier-1 map it succeeds. -/
theorem addSingleton_spec (name : String) (bean : GoVal) (s : Factory)
    (hnil : s.singletonMapNil = false) :
    (addSingleton name bean s).1 = .ok () ∧
    singletonRead (addSingleton name bean s).2 name = some bean ∧
    earlyRead (addSingleton name bean s).2 name = none ∧
    factoryRead (addSingleton name bean s).2 name = none ∧
    (addSingleton name bean s).2.singletonMapNil = false := by
  refine ⟨?_, ?_, ?_, ?_, ?_⟩ <;>
    simp [addSingleton, pushSnap, hnil, singletonRead, earlyRead, factoryRead,
      smapFind_insert, smapFind_erase]

/-- `Pres` for `addSingleton` at a singleton-kind name (both outcomes). -/
theorem addSingleton_pres (name : String) (bean : GoVal) (s : Factory)
    (hk : btRead s name = Singleton) : Pres s (addSingleton name bean s).2 := by
  by_cases hnil : s.singletonMapNil = true
  · have heq : (addSingleton name bean s).2 =
        pushSnap { s with
          earlyMap := smapErase s.earlyMap name
          factoryMap := smapErase s.factoryMap name } := by
      simp [addSingleton, pushSnap, hnil]
    rw [heq]
    refine ⟨rfl, rfl, rfl, rfl, rfl, rfl, le_refl _, fun n hn => ?_, fun hi => ?_⟩
    · have hne : n ≠ name := fun he' => hn (he' ▸ hk)
      refine ⟨rfl, ?_, fun _ => ?_⟩ <;>
        simp [earlyRead, factoryRead, pushSnap, smapFind_erase, Ne.symm hne]
    · exact absurd hi.1 (by rw [hnil]; simp)
  · replace hnil : s.singletonMapNil = false := by
      cases h : s.singletonMapNil
      · rfl
      · exact absurd h hnil
    have heq : (addSingleton name bean s).2 =
        pushSnap { pushSnap { s with
            earlyMap := smapErase s.earlyMap name
            factoryMap := smapErase s.factoryMap name } with
          singletonMap := smapInsert s.singletonMap name bean } := by
      simp [addSingleton, pushSnap, hnil]
    rw [heq]
    refine ⟨rfl, rfl, rfl, rfl, rfl, rfl, le_refl _, fun n hn => ?_, fun hi => ?_⟩
    · have hne : n ≠ name := fun he' => hn (he' ▸ hk)
      refine ⟨?_, ?_, fun _ => ?_⟩ <;>
        simp [singletonRead, earlyRead, factoryRead, pushSnap, smapFind_erase,
          smapFind_insert, Ne.symm hne]
    · obtain ⟨_, hcount⟩ := hi
      refine ⟨hnil, fun n => ?_⟩
      have hp : producerCalls (pushSnap { pushSnap { s with
            earlyMap := smapErase s.earlyMap name
            factoryMap := smapErase s.factoryMap name } with
          singletonMap := smapInsert s.singletonMap name bean }) n =
          producerCalls s n := rfl
      rw [hp]
      refine ⟨(hcount n).1, fun h1 => ?_⟩
      by_cases hn : n = name
      · subst hn
        refine Or.inr ?_
        simp [singletonRead, pushSnap, hnil, smapFind_insert]
      · rcases (hcount n).2 h1 with hc | hc
        · refine Or.inl ?_
          simpa [earlyRead, pushSnap, smapFind_erase, Ne.symm hn] using hc
        · refine Or.inr ?_
          simpa [singletonRead, pushSnap, hnil, smapFind_insert, Ne.symm hn] using hc

/-- `Pres` for `addSingletonFactory` (only ever reached with early
references enabled). -/
theorem addSingletonFactory_pres (name : String) (bean : GoVal) (t : TyRef) (s : Factory)
    (haer : s.allowEarlyReference = true) :
    Pres s (addSingletonFactory name bean t s) := by
  refine ⟨rfl, rfl, rfl, rfl, rfl, rfl, le_refl _, fun n _ => ?_, ?_⟩
  · refine ⟨rfl, rfl, fun hf => ?_⟩
    rw [haer] at hf; cases hf
  · exact inv_congr rfl rfl rfl rfl

/-- `Pres` for `createBefore` (both outcomes only touch `creatingMap`). -/
theorem createBefore_pres (name : String) (bt : BeanType) (s : Factory) :
    Pres s (createBefore name bt s).2 := by
  unfold createBefore
  by_cases h1 : isPrototype bt = true
  · rw [if_pos h1]; exact pres_refl s
  · rw [if_neg h1]
    by_cases h2 : (creatingRead s name).isSome = true
    · rw [if_pos h2]; exact pres_refl s
    · rw [if_neg h2]
      exact pres_untouched rfl rfl rfl rfl rfl rfl (le_refl _) rfl rfl rfl rfl rfl

/-- `Pres` for `createAfter`. -/
theorem createAfter_pres (name : String) (bt : BeanType) (s : Factory) :
    Pres s (createAfter name bt s) := by
  unfold createAfter
  by_cases h1 : isPrototype bt = true
  · rw [if_pos h1]; exact pres_refl s
  · rw [if_neg h1]
    exact pres_untouched rfl rfl rfl rfl rfl rfl (le_refl _) rfl rfl rfl rfl rfl

/-- `Pres` for `allocate`. -/
theorem allocate_pres (sname : String) (s : Factory) :
    Pres s (allocate sname s).2 :=
  pres_untouched rfl rfl rfl rfl rfl rfl (Nat.le_succ _) rfl rfl rfl rfl rfl

/-- `Pres` for `copyValue`. -/
theorem copyValue_pres (src : Nat) (s : Factory) :
    Pres s (copyValue src s).2 :=
  pres_untouched rfl rfl rfl rfl rfl rfl (Nat.le_succ _) rfl rfl rfl rfl rfl

/-- `Pres` for the field store relative to the recursive result state. -/
theorem populateFieldSet_pres (beanId i : Nat) (ftPtr ft : TyRef)
    (r : PRes (Option GoVal)) (s₁ : Factory) :
    Pres s₁ (populateFieldSet beanId i ftPtr ft (r, s₁)).2 := by
  cases r with
  | panicked e => exact pres_refl s₁
  | ok v =>
    cases v with
    | none => exact pres_refl s₁
    | some fv =>
      simp only [populateFieldSet]
      by_cases h3 : isStructBean ftPtr ft = true
      · rw [if_pos h3]
        exact pres_untouched rfl rfl rfl rfl rfl rfl (le_refl _) rfl rfl rfl rfl rfl
      · rw [if_neg h3]
        cases fv with
        | ptrV p =>
          exact pres_untouched rfl rfl rfl rfl rfl rfl (le_refl _) rfl rfl rfl rfl rfl
        | structV q => exact pres_refl s₁

/-- `Pres` for one populate field step (given `Pres` for the recursive
entry point). -/
theorem populateFieldCore_pres (rec : RecFun) (hrec : PresRec rec) (beanId i : Nat)
    (fld : Fld) (ftPtr ft : TyRef) (s : Factory) :
    Pres s (populateFieldCore rec beanId i fld ftPtr ft s).2 := by
  unfold populateFieldCore
  by_cases h1 : isBeanTy ft = true
  · simp only [h1, not_true, if_false, Bool.not_true]
    by_cases h2 : getFieldBeanName s fld ftPtr ft = ""
    · rw [if_pos h2]; exact pres_refl s
    · rw [if_neg h2]
      have hr : Pres s ((if isStructBean ftPtr ft = true then
          rec true (getFieldBeanName s fld ftPtr ft) s
          else rec false (getFieldBeanName s fld ftPtr ft) s)).2 := by
        by_cases h3 : isStructBean ftPtr ft = true
        · rw [if_pos h3]; exact hrec true _ s
        · rw [if_neg h3]; exact hrec false _ s
      rcases hrr : (if isStructBean ftPtr ft = true then
          rec true (getFieldBeanName s fld ftPtr ft) s
          else rec false (getFieldBeanName s fld ftPtr ft) s) with ⟨r, s₁⟩
      rw [hrr] at hr
      exact pres_trans hr (populateFieldSet_pres beanId i ftPtr ft r s₁)
  · have h1' : isBeanTy ft = false := by
      cases h : isBeanTy ft
      · rfl
      · exact absurd h h1
    simp only [h1', Bool.not_false, if_true]
    exact pres_refl s

/-- `Pres` for the pointer/struct field split. -/
theorem populateField_pres (rec : RecFun) (hrec : PresRec rec) (beanId i : Nat)
    (fld : Fld) (s : Factory) :
    Pres s (populateField rec beanId i fld s).2 := by
  cases hft : fld.fty with
  | ptr ft =>
    simp only [populateField, hft]
    exact populateFieldCore_pres rec hrec beanId i fld _ ft s
  | strukt n =>
    simp only [populateField, hft]
    by_cases h : s.allowPopulateStructBean = true
    · rw [if_pos h]; exact populateFieldCore_pres rec hrec beanId i fld _ _ s
    · rw [if_neg h]; exact pres_refl s
  | prim n =>
    simp only [populateField, hft]
    by_cases h : s.allowPopulateStructBean = true
    · rw [if_pos h]; exact populateFieldCore_pres rec hrec beanId i fld _ _ s
    · rw [if_neg h]; exact pres_refl s

/-- `Pres` for the populate loop. -/
theorem populateFields_pres (rec : RecFun) (hrec : PresRec rec) (beanId : Nat)
    (flds : List (Nat × Fld)) (s : Factory) :
    Pres s (populateFields rec beanId flds s).2 := by
  induction flds generalizing s with
  | nil => exact pres_refl s
  | cons e rest ih =>
    obtain ⟨i, fld⟩ := e
    unfold populateFields
    have hp := populateField_pres rec hrec beanId i fld s
    rcases hf : populateField rec beanId i fld s with ⟨r, s₁⟩
    rw [hf] at hp
    cases r with
    | panicked e' => exact hp
    | ok u => exact pres_trans hp (ih s₁)

/-- `Pres` for `populateBean`. -/
theorem populateBean_pres (rec : RecFun) (hrec : PresRec rec) (beanId : Nat)
    (t : TyRef) (s : Factory) :
    Pres s (populateBean rec beanId t s).2 :=
  populateFields_pres rec hrec beanId _ s

/-- `Pres` for the early-exposure step. -/
theorem doCreateExpose_pres (name : String) (t tPtr : TyRef) (id : Nat) (s₁ : Factory) :
    Pres s₁ (doCreateExpose name t tPtr id s₁) := by
  unfold doCreateExpose
  by_cases haer : s₁.allowEarlyReference = true
  · rw [if_pos haer]
    by_cases htp : t = tPtr
    · rw [if_pos htp]
      have hcp := copyValue_pres id s₁
      rcases hcv : copyValue id s₁ with ⟨cid, s'⟩
      rw [hcv] at hcp
      simp only [hcv]
      refine pres_trans hcp (addSingletonFactory_pres name _ t s' ?_)
      rw [hcp.aer_eq, haer]
    · rw [if_neg htp]
      exact addSingletonFactory_pres name _ t s₁ haer
  · rw [if_neg haer]
    exact pres_refl s₁

/-- The reconciliation step never changes the state. -/
theorem doCreateReconcile_state (name : String) (bean2? : Option GoVal) (s₄ : Factory) :
    (doCreateReconcile name bean2? s₄).2 = s₄ := by
  unfold doCreateReconcile
  by_cases haer : s₄.allowEarlyReference = true
  · rw [if_pos haer, getSingleton_false_eq]
    cases (singletonRead s₄ name).elim (earlyRead s₄ name) some with
    | some rv => rfl
    | none => rfl
  · rw [if_neg haer]

/-- `Pres` for the return conversion. -/
theorem doCreateFinish_pres (t tPtr : TyRef) (resBean? : Option GoVal) (s₅ : Factory) :
    Pres s₅ (doCreateFinish t tPtr resBean? s₅).2 := by
  cases resBean? with
  | none => exact pres_refl s₅
  | some rv =>
    simp only [doCreateFinish]
    by_cases htp : t = tPtr
    · rw [if_pos htp]
      cases rv with
      | ptrV p =>
        have hcp := copyValue_pres p s₅
        rcases hcv : copyValue p s₅ with ⟨cid, s₆⟩
        rw [hcv] at hcp
        simp only [hcv]
        exact hcp
      | structV q => exact pres_refl s₅
    · rw [if_neg htp]
      exact pres_refl s₅

/-- `Pres` for `doCreateBean`. -/
theorem doCreateBean_pres (rec : RecFun) (hrec : PresRec rec) (name : String)
    (tPtr? : Option TyRef) (s : Factory) :
    Pres s (doCreateBean rec name tPtr? s).2 := by
  cases tPtr? with
  | none => exact pres_refl s
  | some tPtr =>
    simp only [doCreateBean]
    generalize (match tPtr with | TyRef.ptr e => e | _ => tPtr) = t
    by_cases hb : isBeanTy t = true
    · simp only [hb, not_true, if_false, Bool.not_true]
      obtain ⟨id, s₁, hal⟩ : ∃ a b, allocate (structNameOf t) s = (a, b) := ⟨_, _, rfl⟩
      have halp := allocate_pres (structNameOf t) s
      rw [hal] at halp
      simp only [hal]
      have hexp := doCreateExpose_pres name t tPtr id s₁
      have hpbp := populateBean_pres rec hrec id t (doCreateExpose name t tPtr id s₁)
      obtain ⟨r, s₃, hpb⟩ : ∃ a b,
          populateBean rec id t (doCreateExpose name t tPtr id s₁) = (a, b) := ⟨_, _, rfl⟩
      rw [hpb] at hpbp
      simp only [hpb]
      have base : Pres s s₃ := pres_trans halp (pres_trans hexp hpbp)
      cases r with
      | panicked e => exact base
      | ok u =>
        have hibp := pres_afterInitChain name (.ptrV id) s₃
        obtain ⟨bean2?, s₄, hib⟩ : ∃ a b,
            initializeBean name (.ptrV id) t s₃ = (a, b) := ⟨_, _, rfl⟩
        have hib' : afterInitChain name (.ptrV id) s₃ = (bean2?, s₄) := hib
        rw [hib'] at hibp
        simp only [hib]
        have base4 : Pres s s₄ := pres_trans base hibp
        have hrst := doCreateReconcile_state name bean2? s₄
        obtain ⟨resBean?, s₅, hrb⟩ : ∃ a b,
            doCreateReconcile name bean2? s₄ = (a, b) := ⟨_, _, rfl⟩
        rw [hrb] at hrst
        simp only [hrb]
        have h5 : s₅ = s₄ := hrst
        subst h5
        exact pres_trans base4 (doCreateFinish_pres t tPtr resBean? s₅)
    · have hb' : isBeanTy t = false := by
        cases h : isBeanTy t
        · rfl
        · exact absurd h hb
      simp only [hb', Bool.not_false, if_true]
      exact pres_refl s

/-- `Pres` for the body of `createBean`. -/
theorem createBeanBody_pres (rec : RecFun) (hrec : PresRec rec) (name : String)
    (s₁ : Factory) : Pres s₁ (createBeanBody rec name s₁).2 := by
  cases htr : tRead s₁ name with
  | none => simp only [createBeanBody, htr]; exact pres_refl s₁
  | some tPtr? =>
    simp only [createBeanBody, htr, resolveBeforeInstantiation_eq]
    exact doCreateBean_pres rec hrec name tPtr? s₁

/-- `Pres` for `createBean`. -/
theorem createBean_pres (rec : RecFun) (hrec : PresRec rec) (name : String)
    (bt : BeanType) (new : Bool) (s : Factory) :
    Pres s (createBean rec name bt new s).2 := by
  simp only [createBean]
  obtain ⟨cb, s₀, hcb⟩ : ∃ a b, createBefore name bt s = (a, b) := ⟨_, _, rfl⟩
  have hcbp := createBefore_pres name bt s
  rw [hcb] at hcbp
  simp only [hcb]
  cases cb with
  | panicked e => exact hcbp
  | ok u =>
    obtain ⟨r, s₂, hbd⟩ : ∃ a b, createBeanBody rec name s₀ = (a, b) := ⟨_, _, rfl⟩
    have hbdp := createBeanBody_pres rec hrec name s₀
    rw [hbd] at hbdp
    simp only [hbd]
    exact pres_trans hcbp (pres_trans hbdp (createAfter_pres name bt s₂))

/-- `Pres` for the creation step of the singleton container. -/
theorem singletonContainerCreate_pres (rec : RecFun) (hrec : PresRec rec)
    (name : String) (new : Bool) (s' : Factory) (hk : btRead s' name = Singleton) :
    Pres s' (singletonContainerCreate rec name new s').2 := by
  simp only [singletonContainerCreate]
  obtain ⟨r, s'', hcb⟩ : ∃ a b, createBean rec name Singleton new s' = (a, b) := ⟨_, _, rfl⟩
  have hcbp := createBean_pres rec hrec name Singleton new s'
  rw [hcb] at hcbp
  simp only [hcb]
  cases r with
  | panicked e => exact hcbp
  | ok v =>
    cases v with
    | none => exact hcbp
    | some b =>
      cases new with
      | true => exact hcbp
      | false =>
        have hk'' : btRead s'' name = Singleton := by
          rw [btRead_congr hcbp.bt_eq]; exact hk
        have hap := addSingleton_pres name b s'' hk''
        obtain ⟨ar, s₃, has⟩ : ∃ a c, addSingleton name b s'' = (a, c) := ⟨_, _, rfl⟩
        rw [has] at hap
        simp only [has]
        cases ar with
        | panicked e => exact pres_trans hcbp hap
        | ok u => exact pres_trans hcbp hap

/-- `Pres` for `SingletonContainer.Get`. -/
theorem singletonContainerGet_pres (rec : RecFun) (hrec : PresRec rec)
    (name : String) (new : Bool) (s : Factory) (hk : btRead s name = Singleton) :
    Pres s (singletonContainerGet rec name new s).2 := by
  simp only [singletonContainerGet]
  by_cases hnew : new = true
  · rw [if_pos hnew]
    exact singletonContainerCreate_pres rec hrec name new s hk
  · rw [if_neg hnew]
    have hgp := getSingleton_pres name s.allowEarlyReference s (fun _ => hk)
    obtain ⟨b?, s₁, hgs⟩ : ∃ a b, getSingleton name s.allowEarlyReference s = (a, b) :=
      ⟨_, _, rfl⟩
    rw [hgs] at hgp
    simp only [hgs]
    cases b? with
    | some b => exact hgp
    | none =>
      have hk₁ : btRead s₁ name = Singleton := by
        rw [btRead_congr hgp.bt_eq]; exact hk
      exact pres_trans hgp (singletonContainerCreate_pres rec hrec name new s₁ hk₁)

/-- `Pres` for `PrototypeContainer.Get`. -/
theorem prototypeContainerGet_pres (rec : RecFun) (hrec : PresRec rec)
    (name : String) (new : Bool) (s : Factory) :
    Pres s (prototypeContainerGet rec name new s).2 :=
  createBean_pres rec hrec name Prototype new s

/-- `Pres` for the `GetBean`/`GetNewBean` dispatch. -/
theorem dispatchGo_pres (rec : RecFun) (hrec : PresRec rec) (new : Bool)
    (name : String) (s : Factory) : Pres s (dispatchGo rec new name s).2 := by
  unfold dispatchGo
  by_cases h0 : btRead s name = Invalid
  · rw [if_pos h0]; exact pres_refl s
  · rw [if_neg h0]
    by_cases h1 : isSingleton (btRead s name) = true
    · rw [if_pos h1]
      exact singletonContainerGet_pres rec hrec name new s (of_decide_eq_true h1)
    · rw [if_neg h1]
      exact prototypeContainerGet_pres rec hrec name new s

/-- `Pres` for the fuel-indexed entry point, by induction on the fuel. -/
theorem getBeanAux_pres (fuel : Nat) : PresRec (fun nw nm => getBeanAux fuel nw nm) := by
  induction fuel with
  | zero => intro nw nm s; exact pres_refl s
  | succ n ih => intro nw nm s; exact dispatchGo_pres _ ih nw nm s

/-- `Pres` for `GetBean` and `GetNewBean` at any fuel. -/
theorem GetBean_pres (fuel : Nat) (name : String) (s : Factory) :
    Pres s (GetBean fuel name s).2 :=
  getBeanAux_pres fuel false name s

theorem GetNewBean_pres (fuel : Nat) (name : String) (s : Factory) :
    Pres s (GetNewBean fuel name s).2 :=
  getBeanAux_pres fuel true name s

/-- `addSingleton` succeeded: the committed entry is readable and the
tier-2/3 entries are gone. -/
theorem addSingleton_ok_spec (name : String) (bean : GoVal) (s'' : Factory)
    (ar : Unit) (s₃ : Factory) (h : addSingleton name bean s'' = (.ok ar, s₃)) :
    singletonRead s₃ name = some bean ∧ earlyRead s₃ name = none ∧
    factoryRead s₃ name = none ∧ s₃.singletonMapNil = false := by
  by_cases hnil : s''.singletonMapNil = true
  · exfalso
    have : (addSingleton name bean s'').1 = .panicked "assignment to entry in nil map" := by
      simp [addSingleton, pushSnap, hnil]
    rw [h] at this
    exact absurd this (by simp)
  · have hnil' : s''.singletonMapNil = false := by
      cases hx : s''.singletonMapNil
      · rfl
      · exact absurd hx hnil
    have spec := addSingleton_spec name bean s'' hnil'
    rw [h] at spec
    exact ⟨spec.2.1, spec.2.2.1, spec.2.2.2.1, spec.2.2.2.2⟩

/-- A singleton name cached in tier 1 is served from tier 1 with no state
change and no creation. -/
theorem getBean_cached (f' : Nat) (name : String) (s₁ : Factory) (v : GoVal)
    (hbt : btRead s₁ name = Singleton) (h1 : singletonRead s₁ name = some v) :
    GetBean (f' + 1) name s₁ = (.ok (some v), s₁) := by
  simp [GetBean, getBeanAux, dispatchGo, hbt, isSingleton, Singleton, Invalid,
    singletonContainerGet, getSingleton_hit1 name s₁.allowEarlyReference h1]

/-- First part of the singleton identity: a successful `GetBean` of a
singleton-kind name (from a state whose tiers 2 and 3 do not hold the
name) leaves the returned instance in tier 1, and a repeated `GetBean`
returns the identical instance and changes nothing. -/
theorem singleton_get_stable (f f' : Nat) (s : Factory) (name : String) (v : GoVal)
    (s₁ : Factory) (hbt : btRead s name = Singleton) (he : earlyRead s name = none)
    (hfa : factoryRead s name = none)
    (h : GetBean f name s = (.ok (some v), s₁)) :
    singletonRead s₁ name = some v ∧ GetBean (f' + 1) name s₁ = (.ok (some v), s₁) := by
  cases f with
  | zero => exact absurd h (by simp [GetBean, getBeanAux])
  | succ n =>
    have hpres := GetBean_pres (n + 1) name s
    rw [h] at hpres
    have hbt₁ : btRead s₁ name = Singleton := by
      rw [btRead_congr hpres.bt_eq]; exact hbt
    have hc1 : singletonRead s₁ name = some v := by
      simp only [GetBean, getBeanAux, dispatchGo, hbt] at h
      rw [if_neg (by decide : ¬ (Singleton = Invalid)),
        if_pos (by decide : isSingleton Singleton = true)] at h
      simp only [singletonContainerGet, Bool.false_eq_true, if_false] at h
      cases hs1 : singletonRead s name with
      | some b =>
        rw [getSingleton_hit1 name s.allowEarlyReference hs1] at h
        simp only at h
        cases h
        exact hs1
      | none =>
        rw [getSingleton_miss name s.allowEarlyReference hs1 he (fun _ => hfa)] at h
        simp only at h
        simp only [singletonContainerCreate] at h
        obtain ⟨r, s'', hcb⟩ : ∃ a b,
            createBean (fun nw nm => getBeanAux n nw nm) name Singleton false s = (a, b) :=
          ⟨_, _, rfl⟩
        rw [hcb] at h
        cases r with
        | panicked e => simp at h
        | ok u =>
          cases u with
          | none => simp at h
          | some b =>
            simp only [Bool.false_eq_true, if_false] at h
            obtain ⟨ar, s₃, has⟩ : ∃ a c, addSingleton name b s'' = (a, c) := ⟨_, _, rfl⟩
            rw [has] at h
            cases ar with
            | panicked e => simp at h
            | ok u' =>
              simp only at h
              cases h
              exact (addSingleton_ok_spec _ _ _ _ _ has).1
    exact ⟨hc1, getBean_cached f' name s₁ v hbt₁ hc1⟩

theorem allocate_fst (sname : String) (s : Factory) : (allocate sname s).1 = s.nextId := rfl

theorem allocate_snd_nextId (sname : String) (s : Factory) :
    (allocate sname s).2.nextId = s.nextId + 1 := rfl

theorem copyValue_fst (src : Nat) (s : Factory) : (copyValue src s).1 = s.nextId := rfl

theorem copyValue_snd_nextId (src : Nat) (s : Factory) :
    (copyValue src s).2.nextId = s.nextId + 1 := rfl

theorem createBefore_prototype (name : String) (s : Factory) :
    createBefore name Prototype s = (.ok (), s) := rfl

theorem createAfter_prototype (name : String) (s : Factory) :
    createAfter name Prototype s = s := rfl

/-- With no tier-1/2 entry for the name, reconciliation returns the
initialized bean unchanged. -/
theorem doCreateReconcile_none (name : String) (b? : Option GoVal) (s₄ : Factory)
    (h1 : singletonRead s₄ name = none) (h2 : earlyRead s₄ name = none) :
    doCreateReconcile name b? s₄ = (b?, s₄) := by
  unfold doCreateReconcile
  by_cases haer : s₄.allowEarlyReference = true
  · rw [if_pos haer, getSingleton_false_eq, h1, h2]
    rfl
  · rw [if_neg haer]

/-- A successful prototype `GetBean` returns an instance allocated during
the call: its identifier is at least the entry allocation counter and
strictly below the exit allocation counter. -/
theorem prototype_get_fresh (f : Nat) (s : Factory) (name : String) (v : GoVal)
    (s₁ : Factory) (hbt : btRead s name = Prototype)
    (hs0 : singletonRead s name = none) (he0 : earlyRead s name = none)
    (h : GetBean f name s = (.ok (some v), s₁)) :
    s.nextId ≤ valId v ∧ valId v < s₁.nextId := by
  cases f with
  | zero => exact absurd h (by simp [GetBean, getBeanAux])
  | succ n =>
    simp only [GetBean, getBeanAux, dispatchGo, hbt] at h
    rw [if_neg (by decide : ¬ (Prototype = Invalid)),
      if_neg (by decide : ¬ (isSingleton Prototype = true))] at h
    simp only [prototypeContainerGet, createBean] at h
    rw [createBefore_prototype] at h
    simp only at h
    obtain ⟨r, s₂, hbd⟩ : ∃ a b,
        createBeanBody (fun nw nm => getBeanAux n nw nm) name s = (a, b) := ⟨_, _, rfl⟩
    rw [hbd] at h
    simp only at h
    rw [createAfter_prototype] at h
    injection h with h1 h2
    subst h1 h2
    cases htr : tRead s name with
    | none => rw [createBeanBody, htr] at hbd; simp at hbd
    | some tPtr? =>
      simp only [createBeanBody, htr, resolveBeforeInstantiation_eq] at hbd
      cases tPtr? with
      | none => simp [doCreateBean] at hbd
      | some tPtr =>
        simp only [doCreateBean] at hbd
        set t := (match tPtr with | TyRef.ptr e => e | _ => tPtr) with hT
        by_cases hbn : isBeanTy t = true
        · simp only [hbn, not_true, if_false, Bool.not_true] at hbd
          obtain ⟨id, sA, hal⟩ : ∃ a b, allocate (structNameOf t) s = (a, b) := ⟨_, _, rfl⟩
          have hid : id = s.nextId := by rw [← allocate_fst (structNameOf t) s, hal]
          have hAn : sA.nextId = s.nextId + 1 := by
            rw [← allocate_snd_nextId (structNameOf t) s, hal]
          have halp := allocate_pres (structNameOf t) s
          rw [hal] at halp
          simp only [hal] at hbd
          have hexp := doCreateExpose_pres name t tPtr id sA
          have hpbp := populateBean_pres (fun nw nm => getBeanAux n nw nm) (getBeanAux_pres n)
            id t (doCreateExpose name t tPtr id sA)
          obtain ⟨r3, s₃, hpb⟩ : ∃ a b,
              populateBean (fun nw nm => getBeanAux n nw nm) id t
                (doCreateExpose name t tPtr id sA) = (a, b) := ⟨_, _, rfl⟩
          rw [hpb] at hpbp
          rw [hpb] at hbd
          cases r3 with
          | panicked e => simp at hbd
          | ok u =>
            simp only at hbd
            have hibspec := afterInitChain_spec name (.ptrV id) s₃
            have hibp := pres_afterInitChain name (.ptrV id) s₃
            obtain ⟨b2, s₄, hib⟩ : ∃ a b,
                initializeBean name (.ptrV id) t s₃ = (a, b) := ⟨_, _, rfl⟩
            have hib' : afterInitChain name (.ptrV id) s₃ = (b2, s₄) := hib
            rw [hib'] at hibp
            have hb2 : b2 = some (.ptrV id) := by
              have := hibspec.1
              rw [hib'] at this
              exact this.symm ▸ rfl
            rw [hib] at hbd
            simp only at hbd
            subst hb2
            have hpres4 : Pres s s₄ :=
              pres_trans halp (pres_trans hexp (pres_trans hpbp hibp))
            have hns : btRead s name ≠ Singleton := by rw [hbt]; decide
            have hfr := hpres4.frame name hns
            have h14s : singletonRead s₄ name = none := by rw [hfr.1, hs0]
            have h14e : earlyRead s₄ name = none := by rw [hfr.2.1, he0]
            rw [doCreateReconcile_none name _ s₄ h14s h14e] at hbd
            simp only at hbd
            simp only [doCreateFinish] at hbd
            by_cases htp : t = tPtr
            · rw [if_pos htp] at hbd
              obtain ⟨cid, s₆, hcv⟩ : ∃ a b, copyValue id s₄ = (a, b) := ⟨_, _, rfl⟩
              have hcid : cid = s₄.nextId := by rw [← copyValue_fst id s₄, hcv]
              have h6n : s₆.nextId = s₄.nextId + 1 := by
                rw [← copyValue_snd_nextId id s₄, hcv]
              rw [hcv] at hbd
              simp only at hbd
              injection hbd with hv hs
              injection hv with hv
              injection hv with hv
              subst hs
              rw [← hv, valId, hcid, h6n]
              constructor
              · calc s.nextId ≤ sA.nextId := by omega
                  _ ≤ s₄.nextId := le_trans hexp.next_mono (le_trans hpbp.next_mono hibp.next_mono)
              · omega
            · rw [if_neg htp] at hbd
              injection hbd with hv hs
              injection hv with hv
              injection hv with hv
              rw [← hv, valId, hid, ← hs]
              have hchain : sA.nextId ≤ s₄.nextId :=
                le_trans hexp.next_mono (le_trans hpbp.next_mono hibp.next_mono)
              exact ⟨le_refl _, by omega⟩
        · have hb' : isBeanTy t = false := by
            cases hx : isBeanTy t
            · rfl
            · exact absurd hx hbn
          simp only [hb', Bool.not_false, if_true] at hbd
          simp at hbd

/-- C4.  Singleton identity and prototype freshness.  For a registered
Singleton-kind name (whose tiers 2/3 are clear, as they are whenever the
factory is at rest), a successful `GetBean` leaves the instance in tier 1
and a second `GetBean` returns the identical instance with the state
untouched — served from tier 1 without re-running creation.  For a
registered Prototype-kind name, two successive successful `GetBean` calls
return distinct instances. -/
theorem c4_singleton_prototype_identity :
    (∀ (f f' : Nat) (s : Factory) (name : String) (v : GoVal) (s₁ : Factory),
      btRead s name = Singleton → earlyRead s name = none →
      factoryRead s name = none → GetBean f name s = (.ok (some v), s₁) →
      singletonRead s₁ name = some v ∧ GetBean (f' + 1) name s₁ = (.ok (some v), s₁)) ∧
    (∀ (f f' : Nat) (s : Factory) (name : String) (v₁ : GoVal) (s₁ : Factory)
      (v₂ : GoVal) (s₂ : Factory), btRead s name = Prototype →
      singletonRead s name = none → earlyRead s name = none →
      GetBean f name s = (.ok (some v₁), s₁) →
      GetBean f' name s₁ = (.ok (some v₂), s₂) → v₁ ≠ v₂) := by
  constructor
  · intro f f' s name v s₁ h1 h2 h3 h4
    exact singleton_get_stable f f' s name v s₁ h1 h2 h3 h4
  · intro f f' s name v₁ s₁ v₂ s₂ hbt hs0 he0 h1 h2
    have hp1 := GetBean_pres f name s
    rw [h1] at hp1
    have hbt1 : btRead s₁ name = Prototype := by rw [btRead_congr hp1.bt_eq]; exact hbt
    have hns : btRead s name ≠ Singleton := by rw [hbt]; decide
    have hfr := hp1.frame name hns
    have hs1 : singletonRead s₁ name = none := by rw [hfr.1, hs0]
    have he1 : earlyRead s₁ name = none := by rw [hfr.2.1, he0]
    obtain ⟨b1a, b1b⟩ := prototype_get_fresh f s name v₁ s₁ hbt hs0 he0 h1
    obtain ⟨b2a, b2b⟩ := prototype_get_fresh f' s₁ name v₂ s₂ hbt1 hs1 he1 h2
    intro heq
    rw [heq] at b1b
    omega

/-- C4, witness: on the concrete factory `regPS false`, the singleton part
applies to `s` (yielding the tier-1 entry) and the prototype part applies
to `p` (yielding distinct instances of the two calls). -/
theorem c4_witness :
    singletonRead (GetBean 1 "s" (regPS false)).2 "s" = some (.ptrV 0) ∧
    (GoVal.ptrV 0 : GoVal) ≠ .ptrV 1 := by
  constructor
  · exact (c4_singleton_prototype_identity.1 1 0 (regPS false) "s" (.ptrV 0)
      (GetBean 1 "s" (regPS false)).2 rfl rfl rfl rfl).1
  · exact c4_singleton_prototype_identity.2 1 1 (regPS false) "p" (.ptrV 0)
      (GetBean 1 "p" (regPS false)).2 (.ptrV 1)
      (GetBean 1 "p" (GetBean 1 "p" (regPS false)).2).2 rfl rfl rfl rfl rfl

/-- C3, amended.  What the code actually maintains: (i) a fresh factory
satisfies the cache-discipline invariant `Inv` (tier-1 map live, each
producer invoked at most once, a performed invocation witnessed by a live
tier-2 or tier-1 entry); (ii) `Register` preserves it; (iii) every
`GetBean`/`GetNewBean` preserves it — so across any sequence of these
operations the tier-3 producer of a name runs at most once; and (iv) the
tier-1 commit (`addSingleton`) clears the name's tier-2 and tier-3
entries, so a name resident in tier 1 is absent from tiers 2 and 3.  What
the code does NOT maintain is the memoization clause the claim states:
see the counterexample — after a producer's result is memoized into
tier 2, its tier-3 entry remains live until the commit. -/
theorem c3_cache_discipline_amended :
    (∀ (env : Smap (List Fld)) (aer apsb : Bool), Inv (newFactory env aer apsb)) ∧
    (∀ (name : String) (arg : RegArg) (bt : BeanType) (s : Factory),
      Inv s → Inv (Register name arg bt s).2) ∧
    (∀ (fuel : Nat) (nw : Bool) (name : String) (s : Factory),
      Inv s → Inv (getBeanAux fuel nw name s).2) ∧
    (∀ (name : String) (bean : GoVal) (s : Factory) (ar : Unit) (s₃ : Factory),
      addSingleton name bean s = (.ok ar, s₃) →
      singletonRead s₃ name = some bean ∧ earlyRead s₃ name = none ∧
      factoryRead s₃ name = none) := by
  refine ⟨?_, ?_, ?_, ?_⟩
  · intro env aer apsb
    refine ⟨rfl, fun n => ?_⟩
    have h0 : producerCalls (newFactory env aer apsb) n = 0 := rfl
    rw [h0]
    exact ⟨by omega, fun h => absurd h (by omega)⟩
  · intro name arg bt s hi
    unfold Register
    by_cases h1 : (isSingleton bt = true ∨ isPrototype bt = true)
    · rw [if_neg (not_not_intro h1)]
      by_cases h2 : isRegistered s name = true
      · rw [if_pos h2]; exact hi
      · rw [if_neg h2]
        by_cases h3 : ({ s with btMap := smapInsert s.btMap name bt } : Factory).tMapNil = true
        · rw [if_pos h3]; exact inv_congr rfl rfl rfl rfl hi
        · rw [if_neg h3]; exact inv_congr rfl rfl rfl rfl hi
    · rw [if_pos h1]; exact hi
  · intro fuel nw name s hi
    exact (getBeanAux_pres fuel nw name s).inv hi
  · intro name bean s ar s₃ h
    have hs := addSingleton_ok_spec name bean s ar s₃ h
    exact ⟨hs.1, hs.2.1, hs.2.2.1⟩

/-- C3, witness: the cyclic-resolution run preserves the invariant. -/
theorem c3_cache_discipline_witness :
    Inv (getBeanAux 10 false "a" (regAB true)).2 := by
  refine c3_cache_discipline_amended.2.2.1 10 false "a" (regAB true) ⟨rfl, fun n => ?_⟩
  have h0 : producerCalls (regAB true) n = 0 := rfl
  rw [h0]
  exact ⟨by omega, fun h => absurd h (by omega)⟩

/-- C7, amended.  With early exposure disabled, a `GetBean` of a
Prototype-kind name leaves that name's entries in all three cache tiers
exactly as they were (whatever the outcome).  With early exposure enabled
this fails: see the counterexample — the prototype's creation installs a
tier-3 producer for the name, retaining a reference to the instance. -/
theorem c7_prototype_frame_amended :
    ∀ (fuel : Nat) (name : String) (s : Factory) (r : PRes (Option GoVal)) (s' : Factory),
      btRead s name = Prototype → s.allowEarlyReference = false →
      GetBean fuel name s = (r, s') →
      singletonRead s' name = singletonRead s name ∧
      earlyRead s' name = earlyRead s name ∧
      factoryRead s' name = factoryRead s name := by
  intro fuel name s r s' hbt haer h
  have hp := GetBean_pres fuel name s
  rw [h] at hp
  have hns : btRead s name ≠ Singleton := by rw [hbt]; decide
  obtain ⟨f1, f2, f3⟩ := hp.frame name hns
  exact ⟨f1, f2, f3 haer⟩

/-- C7, witness: the concrete prototype call with early exposure off. -/
theorem c7_prototype_frame_witness :
    singletonRead (GetBean 1 "p" (regPS false)).2 "p" = singletonRead (regPS false) "p" ∧
    earlyRead (GetBean 1 "p" (regPS false)).2 "p" = earlyRead (regPS false) "p" ∧
    factoryRead (GetBean 1 "p" (regPS false)).2 "p" = factoryRead (regPS false) "p" :=
  c7_prototype_frame_amended 1 "p" (regPS false) (GetBean 1 "p" (regPS false)).1
    (GetBean 1 "p" (regPS false)).2 rfl rfl rfl

/-- C9, amended.  The AOP already-wrapped bookkeeping is kept per factory
for its whole lifetime, not per construction: once a name is recorded in
`earlyProxyReferences`, `processAfterInitialization` returns the bean
without wrapping and without touching any state — for every later
construction under that name as well.  Concretely, the cyclic resolution
of "a" wraps "a" exactly once (its own after-initialization does not
re-wrap after the early-reference wrap), and two separate prototype
constructions of "p" also wrap only once in total. -/
theorem c9_wrap_once_amended :
    (∀ (s : Factory) (name : String) (bean : GoVal), (proxyRead s name).isSome →
      aopAfterInitialization name bean s = (some bean, s)) ∧
    (GetBean 10 "a" (regAB true)).2.wrapLog.count "a" = 1 ∧
    (GetBean 5 "p" (GetBean 5 "p" (regPS false)).2).2.wrapLog.count "p" = 1 := by
  refine ⟨fun s name bean h => ?_, by decide, by decide⟩
  unfold aopAfterInitialization
  rw [if_pos h]

/-- C9, witness: after the cyclic run, "a" is recorded as wrapped, and the
after-initialization hook returns the bean unchanged. -/
theorem c9_wrap_once_witness :
    aopAfterInitialization "a" (.ptrV 0) (GetBean 10 "a" (regAB true)).2 =
      (some (.ptrV 0), (GetBean 10 "a" (regAB true)).2) :=
  c9_wrap_once_amended.1 (GetBean 10 "a" (regAB true)).2 "a" (.ptrV 0) (by decide)

/-- `createBefore` for a non-prototype kind with the name not in progress:
mark and continue. -/
theorem createBefore_free (name : String) (bt : BeanType) (s : Factory)
    (hbt2 : isPrototype bt = false) (hc : creatingRead s name = none) :
    createBefore name bt s =
      (.ok (), { s with creatingMap := smapInsert s.creatingMap name () }) := by
  unfold createBefore
  rw [if_neg (by simp [hbt2]), if_neg (by simp [hc])]

/-- C10.  `Register` accepts the untyped nil instance: it reports success
and stores the nil type (`reflect.TypeOf(nil)`) for the name; and from any
state in which the name is registered with the nil type (and no cache or
in-progress entry interferes), `GetBean` panics with the nil-pointer
dereference when `doCreateBean` calls `Kind()` on the nil type — instead
of yielding absence. -/
theorem c10_register_nil_then_panic :
    (∀ (s : Factory) (name : String) (bt : BeanType),
      (isSingleton bt = true ∨ isPrototype bt = true) →
      s.tMapNil = false → isRegistered s name = false →
      (Register name .nilArg bt s).1 = .ok none ∧
      tRead (Register name .nilArg bt s).2 name = some none) ∧
    (∀ (s : Factory) (name : String) (f : Nat),
      tRead s name = some none → btRead s name = Singleton →
      singletonRead s name = none → earlyRead s name = none →
      factoryRead s name = none → creatingRead s name = none →
      (GetBean (f + 1) name s).1 =
        .panicked "runtime error: invalid memory address or nil pointer dereference") := by
  constructor
  · intro s name bt hk ht hr
    unfold Register
    rw [if_neg (not_not_intro hk), if_neg (by simp [hr])]
    rw [if_neg (by simp [ht] :
      ¬ (({ s with btMap := smapInsert s.btMap name bt } : Factory).tMapNil = true))]
    refine ⟨rfl, ?_⟩
    simp [tRead, smapFind_insert, ht, regArgType]
  · intro s name f ht hbt hs he hfa hc
    simp only [GetBean, getBeanAux, dispatchGo, hbt]
    rw [if_neg (by decide : ¬ (Singleton = Invalid)),
      if_pos (by decide : isSingleton Singleton = true)]
    simp only [singletonContainerGet, Bool.false_eq_true, if_false]
    rw [getSingleton_miss name s.allowEarlyReference hs he (fun _ => hfa)]
    simp only [singletonContainerCreate, createBean]
    rw [createBefore_free name Singleton s (by decide) hc]
    simp only
    have ht' : tRead { s with creatingMap := smapInsert s.creatingMap name () } name =
        some none := ht
    simp only [createBeanBody, ht', resolveBeforeInstantiation_eq, doCreateBean]

/-- C10, witness: register nil on a fresh factory, then `GetBean` panics. -/
theorem c10_witness :
    (Register "n" .nilArg Singleton (newFactory [] false false)).1 = .ok none ∧
    tRead (Register "n" .nilArg Singleton (newFactory [] false false)).2 "n" = some none ∧
    (GetBean 5 "n" (Register "n" .nilArg Singleton (newFactory [] false false)).2).1 =
      .panicked "runtime error: invalid memory address or nil pointer dereference" := by
  obtain ⟨h1, h2⟩ := c10_register_nil_then_panic.1 (newFactory [] false false) "n" Singleton
    (Or.inl rfl) rfl rfl
  refine ⟨h1, h2, ?_⟩
  exact c10_register_nil_then_panic.2
    (Register "n" .nilArg Singleton (newFactory [] false false)).2 "n" 4 h2 rfl rfl rfl rfl rfl

/-- C5, amended.  What the populate step actually does when resolving an
injected field's target name: (a) the `di` directive's explicit value when
present, non-empty and registered; (b) with an empty directive value, the
type-directed lookup over the field's pointer type and element type,
subject to the same registered-name check; when the candidate is
unregistered (including "no type match"), resolution yields the empty
name and field population PANICS — no name is auto-registered; and when
the recursive `GetBean` for a resolved registered name yields nothing,
population panics on the reflect zero `Value` instead of leaving the
field at its zero value. -/
theorem c5_field_resolution_amended :
    (∀ (s : Factory) (fld : Fld) (ftPtr ft : TyRef) (v : String),
      fld.di = some v → v ≠ "" → (tRead s v).isSome →
      getFieldBeanName s fld ftPtr ft = v) ∧
    (∀ (s : Factory) (fld : Fld) (ftPtr ft : TyRef),
      fld.di = some "" →
      getFieldBeanName s fld ftPtr ft =
        (if (tRead s (getBeanNameWithReflectType s [ftPtr, ft])).isSome then
          getBeanNameWithReflectType s [ftPtr, ft] else "")) ∧
    (GetBean 6 "x" regX).1 = .panicked "field bean B is not exist" ∧
    (GetBean 6 "w" regWZ).1 =
      .panicked "reflect: call of reflect.Value.Addr on zero Value" := by
  refine ⟨?_, ?_, rfl, rfl⟩
  · intro s fld ftPtr ft v h1 h2 h3
    unfold getFieldBeanName hasAndGetDI
    rw [h1]
    simp only [if_neg h2, if_pos h3]
  · intro s fld ftPtr ft h1
    unfold getFieldBeanName hasAndGetDI
    rw [h1]
    simp

/-- C5, witness: the explicit-name clause at a concrete field and state. -/
theorem c5_field_resolution_witness :
    getFieldBeanName regWZ ⟨"F", some "z", .ptr (.strukt "V")⟩
      (.ptr (.strukt "V")) (.strukt "V") = "z" :=
  c5_field_resolution_amended.1 regWZ ⟨"F", some "z", .ptr (.strukt "V")⟩
    (.ptr (.strukt "V")) (.strukt "V") "z" rfl (by decide) (by decide)

/-- A non-empty result of the order-parameterized scan names a registered
definition with a matching type. -/
theorem ord_result_matches (o : List String) (m : Smap (Option TyRef)) (types : List TyRef) :
    getBeanNameWithReflectTypeOrd o m types ≠ "" →
    ∃ t, smapFind m (getBeanNameWithReflectTypeOrd o m types) = some (some t) ∧
      t ∈ types := by
  induction o with
  | nil => intro h; exact absurd rfl h
  | cons k rest ih =>
    cases hf : smapFind m k with
    | none => simp only [getBeanNameWithReflectTypeOrd, hf]; exact ih
    | some tv =>
      cases tv with
      | none => simp only [getBeanNameWithReflectTypeOrd, hf]; exact ih
      | some t =>
        simp only [getBeanNameWithReflectTypeOrd, hf]
        by_cases hc : types.contains t = true
        · rw [if_pos hc]
          intro _
          exact ⟨t, hf, by simpa using hc⟩
        · rw [if_neg hc]
          exact ih

/-- When no registered definition matches, the scan returns "". -/
theorem ord_no_match (o : List String) (m : Smap (Option TyRef)) (types : List TyRef)
    (hnm : ∀ (k : String) (t : TyRef), smapFind m k = some (some t) → t ∉ types) :
    getBeanNameWithReflectTypeOrd o m types = "" := by
  induction o with
  | nil => rfl
  | cons k rest ih =>
    cases hf : smapFind m k with
    | none => simp only [getBeanNameWithReflectTypeOrd, hf]; exact ih
    | some tv =>
      cases tv with
      | none => simp only [getBeanNameWithReflectTypeOrd, hf]; exact ih
      | some t =>
        have hc : types.contains t = false := by simpa using hnm k t hf
        simp only [getBeanNameWithReflectTypeOrd, hf, hc, Bool.false_eq_true, if_false]
        exact ih

/-- When some element of the scanned order is a registered match (and no
bean is registered under the empty name), the scan does not return "". -/
theorem ord_match_found (o : List String) (m : Smap (Option TyRef)) (types : List TyRef)
    (hkeys : "" ∉ smapKeys m) (k : String) (t : TyRef) (hk : k ∈ o)
    (hf : smapFind m k = some (some t)) (hT : t ∈ types) :
    getBeanNameWithReflectTypeOrd o m types ≠ "" := by
  induction o with
  | nil => cases hk
  | cons k' rest ih =>
    cases hf' : smapFind m k' with
    | none =>
      simp only [getBeanNameWithReflectTypeOrd, hf']
      refine ih ?_
      rcases List.mem_cons.mp hk with h | h
      · subst h; simp [hf'] at hf
      · exact h
    | some tv =>
      cases tv with
      | none =>
        simp only [getBeanNameWithReflectTypeOrd, hf']
        refine ih ?_
        rcases List.mem_cons.mp hk with h | h
        · subst h; simp [hf'] at hf
        · exact h
      | some t' =>
        by_cases hc : types.contains t' = true
        · simp only [getBeanNameWithReflectTypeOrd, hf', if_pos hc]
          intro h0
          exact hkeys (h0 ▸ smapFind_mem_keys hf')
        · simp only [getBeanNameWithReflectTypeOrd, hf', hc, Bool.false_eq_true, if_false]
          refine ih ?_
          rcases List.mem_cons.mp hk with h | h
          · exfalso
            subst h
            rw [hf'] at hf
            injection hf with hf
            injection hf with hf
            rw [← hf] at hT
            exact hc (by simpa using hT)
          · exact h

/-- C8, amended.  Over any possible Go map iteration order (a permutation
of the registered names), the type-directed lookup returns "" exactly when
no registered definition's type matches the candidates (assuming no bean
is registered under the empty name), and a non-empty result always names
a registered definition with a matching type.  Which matching name is
returned depends on the iteration order (see the counterexample), so the
scan is neither deterministic nor first-registered-wins. -/
theorem c8_lookup_amended :
    ∀ (o : List String) (m : Smap (Option TyRef)) (types : List TyRef),
      isIterationOrder o m → "" ∉ smapKeys m →
      (getBeanNameWithReflectTypeOrd o m types = "" ↔
        ∀ (k : String) (t : TyRef), smapFind m k = some (some t) → t ∉ types) ∧
      (getBeanNameWithReflectTypeOrd o m types ≠ "" →
        ∃ t, smapFind m (getBeanNameWithReflectTypeOrd o m types) = some (some t) ∧
          t ∈ types) := by
  intro o m types hord hkeys
  refine ⟨⟨fun h0 k t hf hT => ?_, fun hnm => ord_no_match o m types hnm⟩,
    ord_result_matches o m types⟩
  exact ord_match_found o m types hkeys k t
    (hord.mem_iff.mpr (smapFind_mem_keys hf)) hf hT h0

/-- C8, witness: on the two-definition state, the scan in order
`["x", "y"]` returns a registered matching name. -/
theorem c8_lookup_witness :
    getBeanNameWithReflectTypeOrd ["x", "y"] tMapXY [.ptr (.strukt "T")] = "x" ∧
    ∃ t, smapFind tMapXY
        (getBeanNameWithReflectTypeOrd ["x", "y"] tMapXY [.ptr (.strukt "T")]) =
        some (some t) ∧ t ∈ [TyRef.ptr (.strukt "T")] := by
  refine ⟨rfl, ?_⟩
  exact (c8_lookup_amended ["x", "y"] tMapXY [.ptr (.strukt "T")]
    (List.Perm.refl _) (by decide)).2 (by decide)

end Gioc